import Mathlib

/-!
Verification of the descriptor engine of `@bitcoinerlab/descriptors`
(file `src/descriptors.ts`).

Strings are modelled as `List Char`.  The functions `evaluate`, `expand`,
the `Output` constructor and its methods (`#getTimeConstraints`,
`getSequence`, `getLockTime`, `getScriptPubKey`, `getScriptSatisfaction`,
`#assertPsbtInput`, `finalizePsbtInput`) and `countNonPushOnlyOPs` are
translated directly from `src/descriptors.ts`.

External collaborators (the bitcoinjs payment constructors, address
decoding, script decompilation, the PSBT signature validator and
transaction parser) and the repository modules that are not part of
`src/descriptors.ts` (the key-expression parser, the miniscript
expander/compiler/satisfier) enter through an explicit environment
record `Env`; their interfaces follow the specification.  The checksum
codec (`checksum.ts`) and the shell patterns (`re.ts`) are modelled from
the specification.

JavaScript `number` index arguments are modelled as rationals so that
`Number.isInteger` becomes `q.den = 1`; thrown exceptions become
`Except.error`; `undefined`-or-value fields become `Option`.
-/

/-- Strings of the TypeScript source, modelled as lists of characters. -/
abbrev Str := List Char

/-- Conversion from Lean string literals to the `Str` model. -/
def str (s : String) : Str := s.toList

/-- Byte strings (`Buffer` in the source). -/
abbrev Bytes := List Nat

/-- The decimal digit characters, used to model `Number.prototype.toString`
for the (non-negative, integral) descriptor index. -/
def digitChar (d : Nat) : Char :=
  match d with
  | 0 => '0' | 1 => '1' | 2 => '2' | 3 => '3' | 4 => '4'
  | 5 => '5' | 6 => '6' | 7 => '7' | 8 => '8' | _ => '9'

/-- Structurally recursive helper for `natToDecimal` (the fuel dominates
the number of decimal digits). -/
def natToDecimalAux (fuel n : Nat) : Str :=
  match fuel with
  | 0 => []
  | fuel + 1 =>
    if n < 10 then [digitChar n]
    else natToDecimalAux fuel (n / 10) ++ [digitChar (n % 10)]

/-- Decimal representation of a natural number, modelling
`index.toString()` in the source (the index is a non-negative integer). -/
def natToDecimal (n : Nat) : Str := natToDecimalAux (n + 1) n

/-- `s.replaceAll ('*', rep)` of the source: every `*` is replaced by the
replacement string `rep` in lockstep. -/
def replaceStar (rep : Str) (s : Str) : Str :=
  s.flatMap (fun c => if c = '*' then rep else [c])

/-! ## Checksum codec

Modelled from the spec: module `checksum.ts` (not under `src/`).  The
spec requires the scheme of Bitcoin Core `descriptor.cpp`: a 5-bit-group
polynomial over the 95-character input charset with generator constants
`0xf5dee51989, 0xa9fdca3312, 0x1bab10e32d, 0x3706b1677a, 0x644d626ffd`,
producing an 8-character code over the bech32 charset. -/

/-- Modelled from the spec: the code points of Bitcoin Core's
`INPUT_CHARSET` (the position of a character is its checksum symbol). -/
def inputCharsetCodes : List Nat :=
  [48, 49, 50, 51, 52, 53, 54, 55, 56, 57, 40, 41, 91, 93, 44, 39, 47, 42,
   97, 98, 99, 100, 101, 102, 103, 104, 64, 58, 36, 37, 123, 125, 73, 74,
   75, 76, 77, 78, 79, 80, 81, 82, 83, 84, 85, 86, 87, 88, 89, 90, 38, 43,
   45, 46, 59, 60, 61, 62, 63, 33, 94, 95, 124, 126, 105, 106, 107, 108,
   109, 110, 111, 112, 113, 114, 115, 116, 117, 118, 119, 120, 121, 122,
   65, 66, 67, 68, 69, 70, 71, 72, 96, 35, 34, 92, 32]

/-- Modelled from the spec: the 32-character checksum charset (bech32). -/
def checksumCharset : Str := str "qpzry9x8gf2tvdw0s3jn54khce6mua7l"

/-- Modelled from the spec: one step of the degree-8 polynomial modulus
used by the descriptor checksum, with the five generator constants. -/
def polyMod (c : Nat) (val : Nat) : Nat :=
  let c0 := c >>> 35
  let c1 := ((c &&& 0x7ffffffff) <<< 5) ^^^ val
  let c2 := if c0 &&& 1 ≠ 0 then c1 ^^^ 0xf5dee51989 else c1
  let c3 := if c0 &&& 2 ≠ 0 then c2 ^^^ 0xa9fdca3312 else c2
  let c4 := if c0 &&& 4 ≠ 0 then c3 ^^^ 0x1bab10e32d else c3
  let c5 := if c0 &&& 8 ≠ 0 then c4 ^^^ 0x3706b1677a else c4
  if c0 &&& 16 ≠ 0 then c5 ^^^ 0x644d626ffd else c5

/-- Position of a character in the input charset, `none` for characters
outside it. -/
def charsetPos (c : Char) : Option Nat :=
  inputCharsetCodes.findIdx? (fun k => k = c.toNat)

/-- Modelled from the spec: the fold step over charset positions
(low 5 bits fed directly, high bits grouped three at a time). -/
def checksumStep (st : Nat × Nat × Nat) (pos : Nat) : Nat × Nat × Nat :=
  let c := polyMod st.1 (pos % 32)
  let cls := st.2.1 * 3 + pos / 32
  if st.2.2 + 1 = 3 then (polyMod c cls, 0, 0) else (c, cls, st.2.2 + 1)

/-- Modelled from the spec: `DescriptorChecksum` of `checksum.ts`, the
8-character descriptor checksum of Bitcoin Core `descriptor.cpp`;
returns the empty string on characters outside the input charset. -/
def DescriptorChecksum (span : Str) : Str :=
  match span.mapM charsetPos with
  | none => []
  | some posList =>
    let st := posList.foldl checksumStep (1, 0, 0)
    let c := if st.2.2 > 0 then polyMod st.1 st.2.1 else st.1
    let c := (List.range 8).foldl (fun acc _ => polyMod acc 0) c
    let c := c ^^^ 1
    (List.range 8).map (fun j => checksumCharset.getD ((c >>> (5 * (7 - j))) % 32) 'q')

/-- Modelled from the spec: the trailing-checksum pattern
`(#[checksum charset]{8})$` of `re.ts`.  Returns the body and the
8-character checksum when the string ends in `#` followed by eight
checksum-charset characters. -/
def splitChecksum (s : Str) : Option (Str × Str) :=
  if 9 ≤ s.length then
    match s.drop (s.length - 9) with
    | '#' :: cks =>
      if ∀ c ∈ cks, c ∈ checksumCharset then some (s.take (s.length - 9), cks)
      else none
    | _ => none
  else none

/-- Modelled from the spec: an anchored shell pattern `^pre(.*)post$` of
`re.ts`; returns the inner part when the whole string is
`pre ++ inner ++ post`. -/
def matchW (pre post s : Str) : Option Str :=
  if pre.isPrefixOf s && post.isSuffixOf (s.drop pre.length) then
    some ((s.drop pre.length).take ((s.drop pre.length).length - post.length))
  else none

theorem matchW_eq_some_iff {pre post s a : Str} :
    matchW pre post s = some a ↔ s = pre ++ a ++ post := by
  unfold matchW
  constructor
  · intro h
    split at h
    · next hb =>
      simp only [Bool.and_eq_true, List.isPrefixOf_iff_prefix,
        List.isSuffixOf_iff_suffix] at hb
      obtain ⟨⟨t, ht⟩, hs⟩ := hb
      obtain ⟨u, hu⟩ := hs
      have hdrop : s.drop pre.length = t := by
        rw [← ht, List.drop_left]
      rw [hdrop] at hu
      have hlen : t.length - post.length = u.length := by
        rw [← hu]; simp
      injection h with h
      rw [hdrop, hlen, ← hu, List.take_left] at h
      rw [← ht, ← hu, h, List.append_assoc]
    · exact absurd h (by simp)
  · rintro rfl
    have hpre : pre.isPrefixOf (pre ++ a ++ post) = true := by
      rw [List.isPrefixOf_iff_prefix, List.append_assoc]
      exact ⟨a ++ post, rfl⟩
    have hdrop : (pre ++ a ++ post).drop pre.length = a ++ post := by
      rw [List.append_assoc, List.drop_left]
    have hsuf : post.isSuffixOf ((pre ++ a ++ post).drop pre.length) = true := by
      rw [hdrop, List.isSuffixOf_iff_suffix]; exact ⟨a, rfl⟩
    rw [hpre, hsuf]
    simp only [Bool.and_self, if_pos]
    rw [hdrop]
    congr 1
    simp [List.take_left]

/-! ## Data model

The records below translate the data shapes of `src/descriptors.ts` and
its type declarations: payments, key-info records, expansion results,
PSBT inputs.  Only the attributes the source reads are carried. -/

/-- A bitcoinjs `Payment` as used by the source: `output` is the
scriptPubKey, `address` the optional address, `redeemOutput` models the
access path `payment.redeem?.output`. -/
structure Payment where
  output : Option Bytes := none
  address : Option Str := none
  redeemOutput : Option Bytes := none
deriving DecidableEq, Repr

/-- A key-info record (§4.3 of the spec): the source key expression and
the materialized public key when available. -/
structure KeyInfo where
  keyExpression : Str
  pubkey : Option Bytes := none
deriving DecidableEq, Repr

/-- Ordered values of the expansion map `{'@0': …, '@1': …}`. -/
abbrev ExpansionMap := List KeyInfo

/-- A decompiled script token: an opcode or pushed data
(`(number | Buffer)[]` in bitcoinjs `script.decompile`). -/
inductive ScriptTok where
  | op (n : Nat)
  | data (bs : Bytes)
deriving DecidableEq, Repr

/-- A `PartialSig` pair. -/
structure PartialSigT where
  pubkey : Bytes
  signature : Bytes
deriving DecidableEq, Repr

/-- A preimage record `{ digest, preimage }`. -/
structure Preimage where
  digest : Bytes
  preimage : Bytes
deriving DecidableEq, Repr

/-- Time constraints `{ nLockTime, nSequence }` as returned by the
miniscript satisfier; either component may be `undefined`. -/
structure TimeConstraints where
  nLockTime : Option Nat
  nSequence : Option Nat
deriving DecidableEq, Repr

/-- Result of the miniscript satisfier. -/
structure SatRes where
  scriptSatisfaction : Option Bytes
  nLockTime : Option Nat
  nSequence : Option Nat
deriving DecidableEq, Repr

/-- The per-input data of a PSBT (`psbt.data.inputs[i]`); `witnessUtxo`
carries just its `script` field, `nonWitnessUtxo` the raw transaction
buffer. -/
structure PsbtInputData where
  partialSig : Option (List PartialSigT) := none
  witnessUtxo : Option Bytes := none
  nonWitnessUtxo : Option Bytes := none
  witnessScript : Option Bytes := none
  redeemScript : Option Bytes := none
deriving DecidableEq, Repr

/-- A transaction input of the PSBT (`psbt.txInputs[i]`): its sequence
number and the output index `vout` it spends. -/
structure TxInput where
  sequence : Nat
  index : Nat
deriving DecidableEq, Repr

/-- The PSBT attributes the source reads. -/
structure Psbt where
  inputs : List PsbtInputData
  txInputs : List TxInput
  locktime : Nat
deriving DecidableEq, Repr

/-- The fields of an `Expansion` produced by one dispatch branch
(everything except `isRanged` and `canonicalExpression`, which `expand`
adds). -/
structure DRes where
  payment : Option Payment := none
  expandedExpression : Option Str := none
  miniscript : Option Str := none
  expansionMap : Option ExpansionMap := none
  isSegwit : Option Bool := none
  expandedMiniscript : Option Str := none
  redeemScript : Option Bytes := none
  witnessScript : Option Bytes := none
deriving DecidableEq, Repr

/-- The `Expansion` record returned by `expand`. -/
structure Expansion extends DRes where
  isRanged : Bool
  canonicalExpression : Str
deriving DecidableEq, Repr

/-- The environment of external collaborators: bitcoinjs payment
constructors (one field per call shape used by the source), address
decoding, script decompilation and transaction parsing, plus the
repository modules outside `src/` (`keyExpressions.ts`, `miniscript.ts`)
whose interfaces follow §4.3, §4.4 and §6 of the spec.  A partial
function returning `none` models a thrown exception.  The `network` of
the source is a fixed parameter of every collaborator and is absorbed
into the environment. -/
structure Env where
  /-- `address.toOutputScript(addr, network)`. -/
  toOutputScript : Str → Option Bytes
  /-- `p2pkh({ output, network })`. -/
  p2pkhFromOutput : Bytes → Option Payment
  /-- `p2sh({ output, network })`. -/
  p2shFromOutput : Bytes → Option Payment
  /-- `p2wpkh({ output, network })`. -/
  p2wpkhFromOutput : Bytes → Option Payment
  /-- `p2wsh({ output, network })`. -/
  p2wshFromOutput : Bytes → Option Payment
  /-- `p2tr({ output, network })`. -/
  p2trFromOutput : Bytes → Option Payment
  /-- `p2pk({ pubkey, network })`. -/
  p2pk : Bytes → Option Payment
  /-- `p2pkh({ pubkey, network })`. -/
  p2pkh : Bytes → Option Payment
  /-- `p2wpkh({ pubkey, network })`. -/
  p2wpkh : Bytes → Option Payment
  /-- `p2sh({ redeem, network })`. -/
  p2sh : Payment → Option Payment
  /-- `p2wsh({ redeem, network })`. -/
  p2wsh : Payment → Option Payment
  /-- First match of the key-expression pattern `RE.reKeyExp` inside a
  string (modelled from the spec, `re.ts`). -/
  extractKeyExp : Str → Option Str
  /-- `parseKeyExpression({ keyExpression, network, isSegwit })`. -/
  parseKeyExpression : Str → Bool → Option KeyInfo
  /-- `expandMiniscript({ miniscript, isSegwit, network })`. -/
  expandMiniscript : Str → Bool → Option (Str × ExpansionMap)
  /-- `miniscript2Script({ expandedMiniscript, expansionMap })`. -/
  miniscript2Script : Str → ExpansionMap → Option Bytes
  /-- `bscript.decompile`. -/
  decompile : Bytes → Option (List ScriptTok)
  /-- `satisfyMiniscript({ expandedMiniscript, expansionMap, signatures,
  preimages, timeConstraints? })`. -/
  satisfyMiniscript : Str → ExpansionMap → List PartialSigT → List Preimage →
    Option TimeConstraints → Option SatRes
  /-- `Transaction.fromBuffer(buf).outs`, as the list of output scripts. -/
  txFromBuffer : Bytes → Option (List Bytes)
  /-- `psbt.validateSignaturesOfInput(index, signatureValidator)`. -/
  validateSigs : Psbt → Nat → Bool

/-- `countNonPushOnlyOPs` of the source: decompile the script (failure
is fatal) and count tokens that are opcodes greater than `OP_16`
(`0x60` = 96). -/
def countNonPushOnlyOPs (env : Env) (script : Bytes) : Except String Nat :=
  match env.decompile script with
  | none => .error "Error: could not decompile"
  | some toks =>
    .ok (toks.filter (fun t => match t with
      | .op n => decide (96 < n)
      | .data _ => false)).length

/-- The index-substitution step at the end of `evaluate`: with an index,
require a wildcard in the (checksum-stripped) descriptor and replace
every `*` by the decimal index. -/
def afterIndex (s : Str) (index : Option Nat) : Except String Str :=
  match index with
  | none => .ok s
  | some i =>
    if '*' ∈ s then .ok (replaceStar (natToDecimal i) s)
    else .error "Error: index passed for non-ranged descriptor"

/-- `evaluate` of the source: detect and verify a trailing checksum,
strip it, then particularize a range descriptor for the index. -/
def evaluate (descriptor : Str) (checksumRequired : Bool) (index : Option Nat) :
    Except String Str :=
  if descriptor = [] then .error "Error: you must provide a descriptor"
  else
    match splitChecksum descriptor with
    | none =>
      if checksumRequired then .error "Error: descriptor has not checksum"
      else afterIndex descriptor index
    | some (body, cks) =>
      if cks = DescriptorChecksum body then afterIndex body index
      else .error "Error: invalid descriptor checksum"

/-- The `try { payment = … } catch {}` cascade of the `addr(...)` branch:
the variable keeps the result of the last constructor that succeeded. -/
def lastSome {α : Type} (l : List (Option α)) : Option α :=
  l.foldl (fun acc o => match o with | some a => some a | none => acc) none

/-- The `addr(ADDR)` branch of `expand` (source lines 257-286). -/
def branchAddr (env : Env) (isRanged : Bool) (c : Str) : Except String DRes :=
  if isRanged then .error "Error: addr() cannot be ranged"
  else
    match matchW (str "addr(") (str ")") c with
    | none => .error "Error: could not get an address"
    | some a =>
      if a = [] then .error "Error: could not get an address"
      else
        match env.toOutputScript a with
        | none => .error "Error: invalid address"
        | some output =>
          match lastSome [env.p2pkhFromOutput output, env.p2shFromOutput output,
              env.p2wpkhFromOutput output, env.p2wshFromOutput output,
              env.p2trFromOutput output] with
          | none => .error "Error: invalid address"
          | some payment => .ok { payment := some payment }

/-- The `pk(KEY)` branch (source lines 288-307). -/
def branchPk (env : Env) (icr : Bool) (c : Str) : Except String DRes :=
  match env.extractKeyExp c with
  | none => .error "Error: keyExpression could not me extracted"
  | some k =>
    if k = [] then .error "Error: keyExpression could not me extracted"
    else if c ≠ str "pk(" ++ k ++ str ")" then .error "Error: invalid expression"
    else
      match env.parseKeyExpression k false with
      | none => .error "Error: could not parse keyExpression"
      | some pKE =>
        if icr then
          .ok { isSegwit := some false, expandedExpression := some (str "pk(@0)"),
                expansionMap := some [pKE] }
        else
          match pKE.pubkey with
          | none => .error "Error: could not extract a pubkey"
          | some pubkey =>
            match env.p2pk pubkey with
            | none => .error "Error: payment could not be built"
            | some payment =>
              .ok { isSegwit := some false, expandedExpression := some (str "pk(@0)"),
                    expansionMap := some [pKE], payment := some payment }

/-- The `pkh(KEY)` branch (source lines 309-327). -/
def branchPkh (env : Env) (icr : Bool) (c : Str) : Except String DRes :=
  match env.extractKeyExp c with
  | none => .error "Error: keyExpression could not me extracted"
  | some k =>
    if k = [] then .error "Error: keyExpression could not me extracted"
    else if c ≠ str "pkh(" ++ k ++ str ")" then .error "Error: invalid expression"
    else
      match env.parseKeyExpression k false with
      | none => .error "Error: could not parse keyExpression"
      | some pKE =>
        if icr then
          .ok { isSegwit := some false, expandedExpression := some (str "pkh(@0)"),
                expansionMap := some [pKE] }
        else
          match pKE.pubkey with
          | none => .error "Error: could not extract a pubkey"
          | some pubkey =>
            match env.p2pkh pubkey with
            | none => .error "Error: payment could not be built"
            | some payment =>
              .ok { isSegwit := some false, expandedExpression := some (str "pkh(@0)"),
                    expansionMap := some [pKE], payment := some payment }

/-- The `sh(wpkh(KEY))` branch (source lines 329-352): the p2wpkh
payment is wrapped in p2sh and `redeemScript` is `payment.redeem?.output`. -/
def branchShWpkh (env : Env) (icr : Bool) (c : Str) : Except String DRes :=
  match env.extractKeyExp c with
  | none => .error "Error: keyExpression could not me extracted"
  | some k =>
    if k = [] then .error "Error: keyExpression could not me extracted"
    else if c ≠ str "sh(wpkh(" ++ k ++ str "))" then .error "Error: invalid expression"
    else
      match env.parseKeyExpression k true with
      | none => .error "Error: could not parse keyExpression"
      | some pKE =>
        if icr then
          .ok { isSegwit := some true, expandedExpression := some (str "sh(wpkh(@0))"),
                expansionMap := some [pKE] }
        else
          match pKE.pubkey with
          | none => .error "Error: could not extract a pubkey"
          | some pubkey =>
            match env.p2wpkh pubkey with
            | none => .error "Error: payment could not be built"
            | some inner =>
              match env.p2sh inner with
              | none => .error "Error: payment could not be built"
              | some payment =>
                match payment.redeemOutput with
                | none => .error "Error: could not calculate redeemScript"
                | some rs =>
                  .ok { isSegwit := some true,
                        expandedExpression := some (str "sh(wpkh(@0))"),
                        expansionMap := some [pKE], payment := some payment,
                        redeemScript := some rs }

/-- The `wpkh(KEY)` branch (source lines 354-372). -/
def branchWpkh (env : Env) (icr : Bool) (c : Str) : Except String DRes :=
  match env.extractKeyExp c with
  | none => .error "Error: keyExpression could not me extracted"
  | some k =>
    if k = [] then .error "Error: keyExpression could not me extracted"
    else if c ≠ str "wpkh(" ++ k ++ str ")" then .error "Error: invalid expression"
    else
      match env.parseKeyExpression k true with
      | none => .error "Error: could not parse keyExpression"
      | some pKE =>
        if icr then
          .ok { isSegwit := some true, expandedExpression := some (str "wpkh(@0)"),
                expansionMap := some [pKE] }
        else
          match pKE.pubkey with
          | none => .error "Error: could not extract a pubkey"
          | some pubkey =>
            match env.p2wpkh pubkey with
            | none => .error "Error: payment could not be built"
            | some payment =>
              .ok { isSegwit := some true, expandedExpression := some (str "wpkh(@0)"),
                    expansionMap := some [pKE], payment := some payment }

/-- The `sh(wsh(MINISCRIPT))` branch (source lines 374-410): compile the
expanded miniscript, enforce the 3600-byte and 201-non-push-op caps, wrap
wsh inside sh; `witnessScript` is the compiled script and `redeemScript`
is `payment.redeem?.output`. -/
def branchShWsh (env : Env) (icr : Bool) (c : Str) : Except String DRes :=
  match matchW (str "sh(wsh(") (str "))") c with
  | none => .error "Error: could not get miniscript"
  | some ms =>
    if ms = [] then .error "Error: could not get miniscript"
    else
      match env.expandMiniscript ms true with
      | none => .error "Error: could not expand miniscript"
      | some (ems, emap) =>
        if icr then
          .ok { isSegwit := some true, miniscript := some ms,
                expandedMiniscript := some ems, expansionMap := some emap,
                expandedExpression := some (str "sh(wsh(" ++ ems ++ str "))") }
        else
          match env.miniscript2Script ems emap with
          | none => .error "Error: could not compile miniscript"
          | some script =>
            if 3600 < script.length then .error "Error: script is too large"
            else
              match countNonPushOnlyOPs env script with
              | .error e => .error e
              | .ok n =>
                if 201 < n then .error "Error: too many non-push ops"
                else
                  match env.p2wsh { output := some script } with
                  | none => .error "Error: payment could not be built"
                  | some inner =>
                    match env.p2sh inner with
                    | none => .error "Error: payment could not be built"
                    | some payment =>
                      match payment.redeemOutput with
                      | none => .error "Error: could not calculate redeemScript"
                      | some rs =>
                        .ok { isSegwit := some true, miniscript := some ms,
                              expandedMiniscript := some ems,
                              expansionMap := some emap,
                              expandedExpression := some (str "sh(wsh(" ++ ems ++ str "))"),
                              payment := some payment, redeemScript := some rs,
                              witnessScript := some script }

/-- The head tokens allowed inside `sh(...)` when
`allowMiniscriptInP2SH` is false (source lines 419-427). -/
def msWhitelist : List Str :=
  [str "pk(", str "pkh(", str "wpkh(", str "combo(", str "multi(",
   str "sortedmulti(", str "multi_a(", str "sortedmulti_a("]

/-- The `sh(MINISCRIPT)` branch (source lines 412-455): whitelist check,
compile, enforce the 520-byte and 201-non-push-op caps; `redeemScript`
is the compiled script itself. -/
def branchShMs (env : Env) (allowMiniscriptInP2SH icr : Bool) (c : Str) :
    Except String DRes :=
  match matchW (str "sh(") (str ")") c with
  | none => .error "Error: could not get miniscript"
  | some ms =>
    if ms = [] then .error "Error: could not get miniscript"
    else if allowMiniscriptInP2SH = false ∧ ¬ msWhitelist.any (fun p => p.isPrefixOf ms)
    then .error "Error: Miniscript expressions can only be used in wsh"
    else
      match env.expandMiniscript ms false with
      | none => .error "Error: could not expand miniscript"
      | some (ems, emap) =>
        if icr then
          .ok { isSegwit := some false, miniscript := some ms,
                expandedMiniscript := some ems, expansionMap := some emap,
                expandedExpression := some (str "sh(" ++ ems ++ str ")") }
        else
          match env.miniscript2Script ems emap with
          | none => .error "Error: could not compile miniscript"
          | some script =>
            if 520 < script.length then .error "Error: P2SH script is too large"
            else
              match countNonPushOnlyOPs env script with
              | .error e => .error e
              | .ok n =>
                if 201 < n then .error "Error: too many non-push ops"
                else
                  match env.p2sh { output := some script } with
                  | none => .error "Error: payment could not be built"
                  | some payment =>
                    .ok { isSegwit := some false, miniscript := some ms,
                          expandedMiniscript := some ems,
                          expansionMap := some emap,
                          expandedExpression := some (str "sh(" ++ ems ++ str ")"),
                          payment := some payment, redeemScript := some script }

/-- The `wsh(MINISCRIPT)` branch (source lines 457-484): like
`sh(wsh(MS))` without the outer sh; `witnessScript` is set, no
`redeemScript`. -/
def branchWsh (env : Env) (icr : Bool) (c : Str) : Except String DRes :=
  match matchW (str "wsh(") (str ")") c with
  | none => .error "Error: could not get miniscript"
  | some ms =>
    if ms = [] then .error "Error: could not get miniscript"
    else
      match env.expandMiniscript ms true with
      | none => .error "Error: could not expand miniscript"
      | some (ems, emap) =>
        if icr then
          .ok { isSegwit := some true, miniscript := some ms,
                expandedMiniscript := some ems, expansionMap := some emap,
                expandedExpression := some (str "wsh(" ++ ems ++ str ")") }
        else
          match env.miniscript2Script ems emap with
          | none => .error "Error: could not compile miniscript"
          | some script =>
            if 3600 < script.length then .error "Error: script is too large"
            else
              match countNonPushOnlyOPs env script with
              | .error e => .error e
              | .ok n =>
                if 201 < n then .error "Error: too many non-push ops"
                else
                  match env.p2wsh { output := some script } with
                  | none => .error "Error: payment could not be built"
                  | some payment =>
                    .ok { isSegwit := some true, miniscript := some ms,
                          expandedMiniscript := some ems,
                          expansionMap := some emap,
                          expandedExpression := some (str "wsh(" ++ ems ++ str ")"),
                          payment := some payment, witnessScript := some script }

/-- The regex dispatch chain of `expand` (source lines 257-487), in
source order; `icr` (`isCanonicalRanged`) is recomputed from the
canonical expression. -/
def dispatch (env : Env) (allowMiniscriptInP2SH isRanged : Bool) (c : Str) :
    Except String DRes :=
  if (matchW (str "addr(") (str ")") c).isSome then branchAddr env isRanged c
  else if (matchW (str "pk(") (str ")") c).isSome then branchPk env (decide ('*' ∈ c)) c
  else if (matchW (str "pkh(") (str ")") c).isSome then branchPkh env (decide ('*' ∈ c)) c
  else if (matchW (str "sh(wpkh(") (str "))") c).isSome then
    branchShWpkh env (decide ('*' ∈ c)) c
  else if (matchW (str "wpkh(") (str ")") c).isSome then branchWpkh env (decide ('*' ∈ c)) c
  else if (matchW (str "sh(wsh(") (str "))") c).isSome then branchShWsh env (decide ('*' ∈ c)) c
  else if (matchW (str "sh(") (str ")") c).isSome then
    branchShMs env allowMiniscriptInP2SH (decide ('*' ∈ c)) c
  else if (matchW (str "wsh(") (str ")") c).isSome then branchWsh env (decide ('*' ∈ c)) c
  else .error "Error: could not parse descriptor"

/-- `evaluate` followed by the dispatch, packaging the `Expansion`. -/
def expandCore (env : Env) (descriptor : Str) (idxN : Option Nat)
    (checksumRequired allowMiniscriptInP2SH : Bool) : Except String Expansion :=
  match evaluate descriptor checksumRequired idxN with
  | .error e => .error e
  | .ok c =>
    match dispatch env allowMiniscriptInP2SH (decide ('*' ∈ descriptor)) c with
    | .error e => .error e
    | .ok d =>
      .ok { toDRes := d, isRanged := decide ('*' ∈ descriptor),
            canonicalExpression := c }

/-- `Number.isInteger(index) && index >= 0` over the rational model of a
JavaScript number. -/
def indexValid : Option ℚ → Bool
  | none => true
  | some q => decide (q.den = 1 ∧ 0 ≤ q)

/-- `expand` of the source: empty-descriptor check, index validation,
`evaluate` (checksum strip/verify and wildcard substitution), then the
shell dispatch. -/
def expand (env : Env) (descriptor : Str) (index : Option ℚ)
    (checksumRequired allowMiniscriptInP2SH : Bool) : Except String Expansion :=
  if descriptor = [] then .error "Error: descriptor not provided"
  else if indexValid index then
    expandCore env descriptor (index.map (fun q => q.num.toNat))
      checksumRequired allowMiniscriptInP2SH
  else .error "Error: invalid index"

/-! ## The `Output` class -/

/-- A JavaScript value passed as the `descriptor` constructor argument
(the source checks `typeof descriptor !== 'string'`). -/
inductive JSVal where
  | strv (s : Str)
  | numv (q : ℚ)
  | bufv (b : Bytes)
  | boolv (b : Bool)
  | undef
deriving DecidableEq

/-- The private fields of an `Output` instance that the methods under
verification read (`network` only feeds the final-scripts callback and
is omitted). -/
structure Output where
  payment : Payment
  preimages : List Preimage
  signersPubKeys : List Bytes
  miniscript : Option Str := none
  witnessScript : Option Bytes := none
  redeemScript : Option Bytes := none
  isSegwit : Option Bool := none
  expandedExpression : Option Str := none
  expandedMiniscript : Option Str := none
  expansionMap : Option ExpansionMap := none
deriving DecidableEq, Repr

/-- The default `signersPubKeys` when an expansion map exists: every
`pubkey` of the map, each of which must be materialized. -/
def pubkeysOf (emap : ExpansionMap) : Except String (List Bytes) :=
  emap.mapM (fun ki =>
    match ki.pubkey with
    | some p => Except.ok p
    | none => Except.error "Error: could not extract a pubkey")

/-- The `Output` constructor (source lines 555-674): reject non-string
descriptors, expand, reject a ranged descriptor without index and an
expansion without payment, then default `signersPubKeys` from the
expansion map or, for `addr(...)`, from the scriptPubKey. -/
def mkOutput (env : Env) (descriptor : JSVal) (index : Option ℚ)
    (checksumRequired allowMiniscriptInP2SH : Bool) (preimages : List Preimage)
    (signersPubKeys : Option (List Bytes)) : Except String Output :=
  match descriptor with
  | .strv d =>
    match expand env d index checksumRequired allowMiniscriptInP2SH with
    | .error e => .error e
    | .ok r =>
      if r.isRanged = true ∧ index = none then
        .error "Error: index was not provided for ranged descriptor"
      else
        match r.payment with
        | none => .error "Error: could not extract a payment"
        | some payment =>
          let o : Output :=
            { payment := payment, preimages := preimages, signersPubKeys := [],
              miniscript := r.miniscript, witnessScript := r.witnessScript,
              redeemScript := r.redeemScript, isSegwit := r.isSegwit,
              expandedExpression := r.expandedExpression,
              expandedMiniscript := r.expandedMiniscript,
              expansionMap := r.expansionMap }
          match signersPubKeys with
          | some spks => .ok { o with signersPubKeys := spks }
          | none =>
            match r.expansionMap with
            | some emap =>
              match pubkeysOf emap with
              | .error e => .error e
              | .ok pks => .ok { o with signersPubKeys := pks }
            | none =>
              if (matchW (str "addr(") (str ")") r.canonicalExpression).isSome then
                match payment.output with
                | none => .error "Error: could extract output.script from the payment"
                | some spk => .ok { o with signersPubKeys := [spk] }
              else
                .error "Error: expansionMap not available for an expression that is not an address"
  | _ => .error "Error: invalid descriptor type"

/-- `#getTimeConstraints` of the source (lines 690-717): for a
miniscript descriptor, build fake 64-zero-byte signatures, one per
`signersPubKeys` entry, call the satisfier with them and the stored
preimages, and return its `nLockTime`/`nSequence`; otherwise
`undefined`. -/
def Output.getTimeConstraints (env : Env) (o : Output) :
    Except String (Option TimeConstraints) :=
  match o.miniscript with
  | some _ =>
    match o.expandedMiniscript, o.expansionMap with
    | some ems, some emap =>
      let fakeSignatures := o.signersPubKeys.map
        (fun pubkey => { pubkey := pubkey, signature := List.replicate 64 0 : PartialSigT })
      match env.satisfyMiniscript ems emap fakeSignatures o.preimages none with
      | none => .error "Error: could not satisfy the miniscript"
      | some sr => .ok (some { nLockTime := sr.nLockTime, nSequence := sr.nSequence })
    | _, _ => .error "Error: cannot get time constraints from not expanded miniscript"
  | none => .ok none

/-- `getSequence` (source lines 799-801). -/
def Output.getSequence (env : Env) (o : Output) : Except String (Option Nat) :=
  match o.getTimeConstraints env with
  | .error e => .error e
  | .ok tc => .ok (tc.bind TimeConstraints.nSequence)

/-- `getLockTime` (source lines 805-807). -/
def Output.getLockTime (env : Env) (o : Output) : Except String (Option Nat) :=
  match o.getTimeConstraints env with
  | .error e => .error e
  | .ok tc => .ok (tc.bind TimeConstraints.nLockTime)

/-- `getScriptPubKey` (source lines 736-740). -/
def Output.getScriptPubKey (o : Output) : Except String Bytes :=
  match o.payment.output with
  | none => .error "Error: could extract output.script from the payment"
  | some out => .ok out

/-- `getScriptSatisfaction` (source lines 752-795): satisfier call with
the real signatures and the fake-signature time constraints. -/
def Output.getScriptSatisfaction (env : Env) (o : Output)
    (signatures : List PartialSigT) : Except String Bytes :=
  match o.miniscript, o.expandedMiniscript, o.expansionMap with
  | some _, some ems, some emap =>
    match o.getLockTime env with
    | .error e => .error e
    | .ok lt =>
      match o.getSequence env with
      | .error e => .error e
      | .ok seq =>
        match env.satisfyMiniscript ems emap signatures o.preimages
            (some { nLockTime := lt, nSequence := seq }) with
        | none => .error "Error: could not satisfy the miniscript"
        | some sr =>
          match sr.scriptSatisfaction with
          | none => .error "Error: could not produce a valid satisfaction"
          | some sat => .ok sat
  | _, _, _ => .error "Error: cannot get satisfaction from not expanded miniscript"

/-- The scriptPubKey observed on the PSBT input (source lines 940-952):
from `witnessUtxo.script`, or by deserializing `nonWitnessUtxo` and
selecting the output at the txInput's `vout`. -/
def observedScriptPubKey (env : Env) (psbt : Psbt) (index : Nat) :
    Except String Bytes :=
  match psbt.inputs.get? index, psbt.txInputs.get? index with
  | some input, some txInput =>
    match input.witnessUtxo with
    | some script => .ok script
    | none =>
      match input.nonWitnessUtxo with
      | none => .error "Error: input should have either witnessUtxo or nonWitnessUtxo"
      | some raw =>
        match env.txFromBuffer raw with
        | none => .error "Error: could not parse the transaction"
        | some outs =>
          match outs.get? txInput.index with
          | none => .error "Error: utxo should exist"
          | some out => .ok out
  | _, _ => .error "Error: invalid input or txInput"

/-- The expected sequence of `#assertPsbtInput` (source lines 953-956):
`getSequence()` if defined, else `0xfffffffe` when the locktime
(`getLockTime() || 0`) is non-zero, else `0xffffffff`. -/
def expectedSequence (seqOpt : Option Nat) (locktime : Nat) : Nat :=
  match seqOpt with
  | some s => s
  | none => if locktime ≠ 0 then 0xfffffffe else 0xffffffff

/-- `#assertPsbtInput` of the source (lines 935-972): compute the
expected sequence (`getSequence()` if defined, else `0xfffffffe` when
the locktime is non-zero, else `0xffffffff`) and assert equality of the
scriptPubKey, sequence, locktime, witnessScript and redeemScript; the
script comparisons (`eqBuffers`) treat two absent values as equal and an
absent value as different from any present buffer. -/
def Output.assertPsbtInput (env : Env) (o : Output) (psbt : Psbt) (index : Nat) :
    Except String Unit :=
  match psbt.inputs.get? index, psbt.txInputs.get? index with
  | some input, some txInput =>
    match observedScriptPubKey env psbt index with
    | .error e => .error e
    | .ok scriptPubKey =>
      match o.getLockTime env with
      | .error e => .error e
      | .ok lt =>
        match o.getSequence env with
        | .error e => .error e
        | .ok seqOpt =>
          match o.getScriptPubKey with
          | .error e => .error e
          | .ok spk =>
            if scriptPubKey = spk ∧ expectedSequence seqOpt (lt.getD 0) = txInput.sequence ∧
                lt.getD 0 = psbt.locktime ∧
                o.witnessScript = input.witnessScript ∧
                o.redeemScript = input.redeemScript
            then .ok ()
            else .error "Error: cannot finalize psbt index since it does not correspond to this descriptor"
  | _, _ => .error "Error: invalid input or txInput"

/-- What `finalizePsbtInput` installs on success: the default
finalizer, or the custom final-scripts callback carrying the computed
satisfaction. -/
inductive FinalAction where
  | standard
  | withSatisfaction (sat : Bytes)
deriving DecidableEq, Repr

/-- `finalizePsbtInput` of the source (lines 1004-1045): optional
signature validation, require `partialSig`, assert the input shape, then
finalize (with the satisfaction for miniscript descriptors). -/
def Output.finalizePsbtInput (env : Env) (o : Output) (index : Nat) (psbt : Psbt)
    (validate : Bool) : Except String FinalAction :=
  if validate ∧ env.validateSigs psbt index = false then
    .error "Error: invalid signatures on input"
  else
    match (psbt.inputs.get? index).bind PsbtInputData.partialSig with
    | none => .error "Error: cannot finalize without signatures"
    | some signatures =>
      match o.assertPsbtInput env psbt index with
      | .error e => .error e
      | .ok _ =>
        match o.miniscript with
        | none => .ok .standard
        | some _ =>
          match o.getScriptSatisfaction env signatures with
          | .error e => .error e
          | .ok sat => .ok (.withSatisfaction sat)

/-- `e` is a failure (a thrown exception in the source). -/
def isFailure {α : Type} : Except String α → Bool
  | .error _ => true
  | .ok _ => false

/-- `e` succeeded and the resulting expansion carries a payment. -/
def isOkWithPayment : Except String Expansion → Bool
  | .ok r => r.payment.isSome
  | .error _ => false

/-! ## Basic lemmas about the string model -/

theorem digitChar_ne_star (d : Nat) : digitChar d ≠ '*' := by
  unfold digitChar
  split <;> decide

theorem natToDecimalAux_no_star (fuel n : Nat) : '*' ∉ natToDecimalAux fuel n := by
  induction fuel generalizing n with
  | zero => simp [natToDecimalAux]
  | succ fuel ih =>
    rw [natToDecimalAux]
    split
    · intro h
      rcases List.mem_singleton.mp h with h
      exact digitChar_ne_star n h.symm
    · intro hmem
      rcases List.mem_append.mp hmem with h1 | h2
      · exact ih (n / 10) h1
      · rcases List.mem_singleton.mp h2 with h2
        exact digitChar_ne_star (n % 10) h2.symm

theorem natToDecimal_no_star (n : Nat) : '*' ∉ natToDecimal n :=
  natToDecimalAux_no_star (n + 1) n

theorem replaceStar_no_star {rep : Str} (hrep : '*' ∉ rep) (s : Str) :
    '*' ∉ replaceStar rep s := by
  intro h
  rcases List.mem_flatMap.mp h with ⟨c, _, hc⟩
  by_cases hcs : c = '*'
  · rw [hcs] at hc; simp only [if_pos rfl] at hc; exact hrep hc
  · simp only [if_neg hcs] at hc
    exact hcs (List.mem_singleton.mp hc).symm

theorem replaceStar_eq_self {rep s : Str} (h : '*' ∉ s) : replaceStar rep s = s := by
  induction s with
  | nil => rfl
  | cons c cs ih =>
    have hc : c ≠ '*' := fun hc => h (hc ▸ List.mem_cons_self c cs)
    have hcs : '*' ∉ cs := fun hm => h (List.mem_cons_of_mem c hm)
    show (if c = '*' then rep else [c]) ++ replaceStar rep cs = c :: cs
    rw [if_neg hc, ih hcs]
    rfl

theorem replaceStar_append (rep s t : Str) :
    replaceStar rep (s ++ t) = replaceStar rep s ++ replaceStar rep t :=
  List.flatMap_append ..

/-! ## Characterization of the checksum split -/

theorem splitChecksum_eq_some_iff {s b k : Str} :
    splitChecksum s = some (b, k) ↔
      s = b ++ '#' :: k ∧ k.length = 8 ∧ ∀ c ∈ k, c ∈ checksumCharset := by
  unfold splitChecksum
  constructor
  · intro h
    split at h
    · next hlen =>
      split at h
      · next tl cks heq =>
        split at h
        · next hin =>
          injection h with h
          have hb : b = s.take (s.length - 9) := congrArg Prod.fst h.symm
          have hk : k = cks := congrArg Prod.snd h.symm
          subst hb; subst hk
          have hsplit : s = s.take (s.length - 9) ++ '#' :: k := by
            conv_lhs => rw [← List.take_append_drop (s.length - 9) s]
            rw [heq]
          refine ⟨hsplit, ?_, hin⟩
          have hdl : (s.drop (s.length - 9)).length = 9 := by
            rw [List.length_drop]
            omega
          rw [heq] at hdl
          simpa using hdl
        · exact absurd h (by simp)
      · exact absurd h (by simp)
    · exact absurd h (by simp)
  · rintro ⟨rfl, hlen, hin⟩
    have hslen : (b ++ '#' :: k).length = b.length + 9 := by
      simp [hlen]
    have h9 : 9 ≤ (b ++ '#' :: k).length := by omega
    have hidx : (b ++ '#' :: k).length - 9 = b.length := by omega
    rw [if_pos h9, hidx, List.drop_left, List.take_left]
    split
    · next cks heq =>
      injection heq with _ hk
      subst hk
      rw [if_pos hin]
    · next hne => exact absurd rfl (hne k)

theorem splitChecksum_none_of_paren_suffix {s : Str} (h : [')'] <:+ s) :
    splitChecksum s = none := by
  cases hsc : splitChecksum s with
  | none => rfl
  | some bk =>
    obtain ⟨b, k⟩ := bk
    obtain ⟨hs, hlen, hin⟩ := splitChecksum_eq_some_iff.mp hsc
    obtain ⟨t, ht⟩ := h
    have hknil : k ≠ [] := by intro hk; rw [hk] at hlen; simp at hlen
    have h1 : s.getLast? = some ')' := by rw [← ht]; exact List.getLast?_concat _
    have h2 : s.getLast? = ('#' :: k).getLast? := by
      rw [hs]; exact List.getLast?_append_of_ne_nil _ (by simp)
    have h3 : ('#' :: k).getLast? = k.getLast? :=
      List.getLast?_append_of_ne_nil ['#'] hknil
    have h4 : k.getLast? = some ')' := by rw [← h3, ← h2, h1]
    have h5 : ')' ∈ k := by
      rcases List.mem_getLast?_eq_getLast h4 with ⟨hne, h5⟩
      rw [h5]; exact List.getLast_mem hne
    exact absurd (hin _ h5) (by decide)

/-! ## Lemmas about `evaluate` -/

theorem afterIndex_some_ok {s : Str} {i : Nat} {c : Str}
    (h : afterIndex s (some i) = .ok c) :
    '*' ∈ s ∧ c = replaceStar (natToDecimal i) s := by
  simp only [afterIndex] at h
  split at h
  · next hmem => injection h with h; exact ⟨hmem, h.symm⟩
  · exact absurd h (by simp)

theorem evaluate_ok_cases {d : Str} {cr : Bool} {idx : Option Nat} {c : Str}
    (h : evaluate d cr idx = .ok c) :
    d ≠ [] ∧
      ((splitChecksum d = none ∧ cr = false ∧ afterIndex d idx = .ok c) ∨
       (∃ b k, splitChecksum d = some (b, k) ∧ k = DescriptorChecksum b ∧
         afterIndex b idx = .ok c)) := by
  unfold evaluate at h
  split at h
  · exact absurd h (by simp)
  · next hne =>
    refine ⟨hne, ?_⟩
    split at h
    · next hsc =>
      split at h
      · exact absurd h (by simp)
      · next hcr => exact Or.inl ⟨hsc, Bool.eq_false_iff.mpr hcr, h⟩
    · next b k hsc =>
      split at h
      · next hck => exact Or.inr ⟨b, k, hsc, hck, h⟩
      · exact absurd h (by simp)

theorem evaluate_ok_star {d : Str} {cr : Bool} {idx : Option Nat} {c : Str}
    (h : evaluate d cr idx = .ok c) (hstar : '*' ∈ c) : '*' ∈ d := by
  obtain ⟨-, hcase⟩ := evaluate_ok_cases h
  rcases hcase with ⟨-, -, hai⟩ | ⟨b, k, hsc, -, hai⟩
  · cases idx with
    | none => injection hai with hai; exact hai ▸ hstar
    | some i =>
      obtain ⟨-, rfl⟩ := afterIndex_some_ok hai
      exact absurd hstar (replaceStar_no_star (natToDecimal_no_star i) _)
  · obtain ⟨hs, -, -⟩ := splitChecksum_eq_some_iff.mp hsc
    cases idx with
    | none =>
      injection hai with hai
      subst hai
      exact hs ▸ List.mem_append_left _ hstar
    | some i =>
      obtain ⟨-, rfl⟩ := afterIndex_some_ok hai
      exact absurd hstar (replaceStar_no_star (natToDecimal_no_star i) _)

/-! ## Lemmas about the dispatch -/

theorem paren_of_guard {pre post c : Str} (hg : (matchW pre post c).isSome = true)
    (hp : [')'] <:+ post) : [')'] <:+ c := by
  rcases Option.isSome_iff_exists.mp hg with ⟨a, ha⟩
  rw [matchW_eq_some_iff.mp ha]
  exact hp.trans (List.suffix_append _ _)

theorem matchW_none_of_isSome {p₁ q₁ p₂ q₂ c : Str}
    (h : (matchW p₁ q₁ c).isSome = true)
    (h12 : ¬ p₁ <+: p₂) (h21 : ¬ p₂ <+: p₁) :
    matchW p₂ q₂ c = none := by
  rcases Option.isSome_iff_exists.mp h with ⟨a, ha⟩
  cases hmw : matchW p₂ q₂ c with
  | none => rfl
  | some b =>
    have hc1 := matchW_eq_some_iff.mp ha
    have hc2 := matchW_eq_some_iff.mp hmw
    have hp1 : p₁ <+: c := by rw [hc1, List.append_assoc]; exact ⟨_, rfl⟩
    have hp2 : p₂ <+: c := by rw [hc2, List.append_assoc]; exact ⟨_, rfl⟩
    rcases Nat.le_total p₁.length p₂.length with hle | hle
    · exact absurd (List.prefix_of_prefix_length_le hp1 hp2 hle) h12
    · exact absurd (List.prefix_of_prefix_length_le hp2 hp1 hle) h21

/-- A successful dispatch only happens on a canonical expression that
ends in a closing parenthesis. -/
theorem dispatch_ok_paren {env : Env} {ams ir : Bool} {c : Str} {d : DRes}
    (h : dispatch env ams ir c = .ok d) : [')'] <:+ c := by
  unfold dispatch at h
  repeat' split at h
  any_goals exact Except.noConfusion h
  all_goals rename_i hg
  all_goals exact paren_of_guard hg (by decide)

/-- `addr(...)` only succeeds on non-ranged descriptors, always yields a
payment, and sets no scripts. -/
theorem branchAddr_payment {env : Env} {ir : Bool} {c : Str} {d : DRes}
    (h : branchAddr env ir c = .ok d) :
    ir = false ∧ d.payment.isSome = true ∧ d.redeemScript = none ∧
      d.witnessScript = none := by
  unfold branchAddr at h
  repeat' split at h
  any_goals exact Except.noConfusion h
  all_goals injection h with h
  all_goals subst h
  all_goals simp_all

theorem branchPk_payment {env : Env} {icr : Bool} {c : Str} {d : DRes}
    (h : branchPk env icr c = .ok d) :
    d.payment.isSome = !icr ∧ d.redeemScript = none ∧ d.witnessScript = none := by
  unfold branchPk at h
  repeat' split at h
  any_goals exact Except.noConfusion h
  all_goals injection h with h
  all_goals subst h
  all_goals simp_all

theorem branchPkh_payment {env : Env} {icr : Bool} {c : Str} {d : DRes}
    (h : branchPkh env icr c = .ok d) :
    d.payment.isSome = !icr ∧ d.redeemScript = none ∧ d.witnessScript = none := by
  unfold branchPkh at h
  repeat' split at h
  any_goals exact Except.noConfusion h
  all_goals injection h with h
  all_goals subst h
  all_goals simp_all

theorem branchShWpkh_payment {env : Env} {icr : Bool} {c : Str} {d : DRes}
    (h : branchShWpkh env icr c = .ok d) :
    d.payment.isSome = !icr ∧ (icr = true → d.redeemScript = none) ∧
      d.witnessScript = none := by
  unfold branchShWpkh at h
  repeat' split at h
  any_goals exact Except.noConfusion h
  all_goals injection h with h
  all_goals subst h
  all_goals simp_all

theorem branchWpkh_payment {env : Env} {icr : Bool} {c : Str} {d : DRes}
    (h : branchWpkh env icr c = .ok d) :
    d.payment.isSome = !icr ∧ d.redeemScript = none ∧ d.witnessScript = none := by
  unfold branchWpkh at h
  repeat' split at h
  any_goals exact Except.noConfusion h
  all_goals injection h with h
  all_goals subst h
  all_goals simp_all

theorem branchShWsh_payment {env : Env} {icr : Bool} {c : Str} {d : DRes}
    (h : branchShWsh env icr c = .ok d) :
    d.payment.isSome = !icr ∧
      (icr = true → d.redeemScript = none ∧ d.witnessScript = none) := by
  unfold branchShWsh at h
  repeat' split at h
  any_goals exact Except.noConfusion h
  all_goals injection h with h
  all_goals subst h
  all_goals simp_all

theorem branchShMs_payment {env : Env} {ams icr : Bool} {c : Str} {d : DRes}
    (h : branchShMs env ams icr c = .ok d) :
    d.payment.isSome = !icr ∧ (icr = true → d.redeemScript = none) ∧
      d.witnessScript = none := by
  unfold branchShMs at h
  repeat' split at h
  any_goals exact Except.noConfusion h
  all_goals injection h with h
  all_goals subst h
  all_goals simp_all

theorem branchWsh_payment {env : Env} {icr : Bool} {c : Str} {d : DRes}
    (h : branchWsh env icr c = .ok d) :
    d.payment.isSome = !icr ∧ d.redeemScript = none ∧
      (icr = true → d.witnessScript = none) := by
  unfold branchWsh at h
  repeat' split at h
  any_goals exact Except.noConfusion h
  all_goals injection h with h
  all_goals subst h
  all_goals simp_all

/-- A successful dispatch yields a payment exactly when the canonical
expression is not ranged, provided a ranged canonical expression implies
a ranged descriptor (which `expand` guarantees); in the ranged case no
scripts are set. -/
theorem dispatch_ok_payment {env : Env} {ams ir : Bool} {c : Str} {d : DRes}
    (h : dispatch env ams ir c = .ok d) (hic : ('*' ∈ c) → ir = true) :
    d.payment.isSome = !(decide ('*' ∈ c)) ∧
    ('*' ∈ c → d.redeemScript = none ∧ d.witnessScript = none) := by
  unfold dispatch at h
  repeat' split at h
  any_goals exact Except.noConfusion h
  · obtain ⟨hir, hp, hr, hw⟩ := branchAddr_payment h
    have hnc : ¬ '*' ∈ c := fun hm => by rw [hic hm] at hir; exact Bool.noConfusion hir
    refine ⟨?_, fun hm => absurd hm hnc⟩
    rw [hp]; simp [hnc]
  · obtain ⟨hp, hr, hw⟩ := branchPk_payment h
    exact ⟨hp, fun _ => ⟨hr, hw⟩⟩
  · obtain ⟨hp, hr, hw⟩ := branchPkh_payment h
    exact ⟨hp, fun _ => ⟨hr, hw⟩⟩
  · obtain ⟨hp, hr, hw⟩ := branchShWpkh_payment h
    exact ⟨hp, fun hm => ⟨hr (by simp [hm]), hw⟩⟩
  · obtain ⟨hp, hr, hw⟩ := branchWpkh_payment h
    exact ⟨hp, fun _ => ⟨hr, hw⟩⟩
  · obtain ⟨hp, hrw⟩ := branchShWsh_payment h
    exact ⟨hp, fun hm => hrw (by simp [hm])⟩
  · obtain ⟨hp, hr, hw⟩ := branchShMs_payment h
    exact ⟨hp, fun hm => ⟨hr (by simp [hm]), hw⟩⟩
  · obtain ⟨hp, hr, hw⟩ := branchWsh_payment h
    exact ⟨hp, fun hm => ⟨hr, hw (by simp [hm])⟩⟩

/-- Destructuring of a successful `expand`. -/
theorem expand_ok_parts {env : Env} {d : Str} {idx : Option ℚ} {cr ams : Bool}
    {r : Expansion} (h : expand env d idx cr ams = .ok r) :
    d ≠ [] ∧ indexValid idx = true ∧
    evaluate d cr (idx.map fun q => q.num.toNat) = .ok r.canonicalExpression ∧
    dispatch env ams (decide ('*' ∈ d)) r.canonicalExpression = .ok r.toDRes ∧
    r.isRanged = decide ('*' ∈ d) := by
  unfold expand expandCore at h
  repeat' split at h
  any_goals exact Except.noConfusion h
  injection h with h
  subst h
  refine ⟨?_, ?_, ?_, ?_, rfl⟩ <;> simp_all

/-! ## Failure-propagation lemmas for `evaluate` and `expand` -/

theorem evaluate_error_no_checksum {d : Str} {idx : Option Nat}
    (hsc : splitChecksum d = none) :
    isFailure (evaluate d true idx) = true := by
  unfold evaluate
  split
  · rfl
  · simp only [hsc]
    rfl

theorem evaluate_error_bad_checksum {d b k : Str} {cr : Bool} {idx : Option Nat}
    (hsc : splitChecksum d = some (b, k)) (hk : k ≠ DescriptorChecksum b) :
    isFailure (evaluate d cr idx) = true := by
  unfold evaluate
  split
  · rfl
  · simp only [hsc]
    rw [if_neg hk]
    rfl

theorem evaluate_index_nonranged {d : Str} {n : Nat} {cr : Bool}
    (hsc : splitChecksum d = none) (hns : '*' ∉ d) :
    isFailure (evaluate d cr (some n)) = true := by
  unfold evaluate
  split
  · rfl
  · simp only [hsc]
    split
    · rfl
    · unfold afterIndex
      simp only [if_neg hns]
      rfl

theorem evaluate_index_nonranged_body {d b k : Str} {n : Nat} {cr : Bool}
    (hsc : splitChecksum d = some (b, k)) (hns : '*' ∉ b) :
    isFailure (evaluate d cr (some n)) = true := by
  unfold evaluate
  split
  · rfl
  · simp only [hsc]
    split
    · unfold afterIndex
      simp only [if_neg hns]
      rfl
    · rfl

theorem expand_failure_of_evaluate {env : Env} {d : Str} {idx : Option ℚ}
    {cr ams : Bool}
    (h : isFailure (evaluate d cr (idx.map fun q => q.num.toNat)) = true) :
    isFailure (expand env d idx cr ams) = true := by
  unfold expand
  split
  · rfl
  · split
    · unfold expandCore
      cases heval : evaluate d cr (idx.map fun q => q.num.toNat) with
      | error e => simp only [heval]; rfl
      | ok c => rw [heval] at h; exact absurd h (by simp [isFailure])
    · rfl

/-! ## Claim theorems C1-C3 -/

/-- **C1.** For every call to `expand`: if the descriptor has no
trailing `#`-plus-8-character checksum and `checksumRequired` is true,
`expand` fails; if a trailing checksum is present, it is stripped and
compared against the checksum computed over the remaining body, and any
mismatch makes `expand` fail; on success the returned
`canonicalExpression` carries no trailing checksum. -/
theorem expand_checksum_spec (env : Env) (d : Str) (idx : Option ℚ) (cr ams : Bool) :
    (splitChecksum d = none → cr = true →
      isFailure (expand env d idx cr ams) = true) ∧
    (∀ b k, splitChecksum d = some (b, k) → k ≠ DescriptorChecksum b →
      isFailure (expand env d idx cr ams) = true) ∧
    (∀ r, expand env d idx cr ams = .ok r →
      splitChecksum r.canonicalExpression = none) := by
  refine ⟨?_, ?_, ?_⟩
  · intro hsc hcr
    subst hcr
    exact expand_failure_of_evaluate (evaluate_error_no_checksum hsc)
  · intro b k hsc hk
    exact expand_failure_of_evaluate (evaluate_error_bad_checksum hsc hk)
  · intro r hok
    obtain ⟨-, -, -, hdisp, -⟩ := expand_ok_parts hok
    exact splitChecksum_none_of_paren_suffix (dispatch_ok_paren hdisp)

/-- **C2.** For every successful call to `expand`, the payment field is
present iff the canonical (checksum-stripped, index-substituted)
expression contains no `*`; when the canonical expression still contains
`*`, `redeemScript` and `witnessScript` are also absent. -/
theorem expand_payment_presence {env : Env} {d : Str} {idx : Option ℚ}
    {cr ams : Bool} {r : Expansion} (h : expand env d idx cr ams = .ok r) :
    (r.payment.isSome = true ↔ '*' ∉ r.canonicalExpression) ∧
    ('*' ∈ r.canonicalExpression →
      r.redeemScript = none ∧ r.witnessScript = none) := by
  obtain ⟨-, -, heval, hdisp, -⟩ := expand_ok_parts h
  have hic : ('*' ∈ r.canonicalExpression) → decide ('*' ∈ d) = true :=
    fun hm => decide_eq_true (evaluate_ok_star heval hm)
  obtain ⟨hp, hrw⟩ := dispatch_ok_payment hdisp hic
  refine ⟨?_, hrw⟩
  rw [hp]
  by_cases hm : '*' ∈ r.canonicalExpression <;> simp [hm]

/-- **C3.** For every call to `expand` with an index argument: a
non-integer or negative index fails; an index supplied when the
checksum-stripped body contains no `*` fails; otherwise every `*` in the
body is replaced in lockstep by the decimal representation of the index,
so the resulting `canonicalExpression` contains no `*`. -/
theorem expand_index_spec (env : Env) (d : Str) (q : ℚ) (cr ams : Bool) :
    (¬ (q.den = 1 ∧ 0 ≤ q) → isFailure (expand env d (some q) cr ams) = true) ∧
    (splitChecksum d = none → '*' ∉ d →
      isFailure (expand env d (some q) cr ams) = true) ∧
    (∀ b k, splitChecksum d = some (b, k) → '*' ∉ b →
      isFailure (expand env d (some q) cr ams) = true) ∧
    (∀ r, expand env d (some q) cr ams = .ok r →
      (q.den = 1 ∧ 0 ≤ q) ∧
      (∃ body, (splitChecksum d = none ∧ body = d ∨
                ∃ k, splitChecksum d = some (body, k)) ∧
        '*' ∈ body ∧
        r.canonicalExpression = replaceStar (natToDecimal q.num.toNat) body) ∧
      '*' ∉ r.canonicalExpression) := by
  refine ⟨?_, ?_, ?_, ?_⟩
  · intro hq
    unfold expand
    split
    · rfl
    · rw [if_neg (by simpa [indexValid] using hq)]
      rfl
  · intro hsc hns
    exact expand_failure_of_evaluate (evaluate_index_nonranged hsc hns)
  · intro b k hsc hns
    exact expand_failure_of_evaluate (evaluate_index_nonranged_body hsc hns)
  · intro r hok
    obtain ⟨-, hiv, heval, -, -⟩ := expand_ok_parts hok
    refine ⟨by simpa [indexValid] using hiv, ?_, ?_⟩
    · obtain ⟨-, hcase⟩ := evaluate_ok_cases heval
      rcases hcase with ⟨hsc, -, hai⟩ | ⟨b, k, hsc, -, hai⟩
      · obtain ⟨hmem, hrep⟩ := afterIndex_some_ok hai
        exact ⟨d, Or.inl ⟨hsc, rfl⟩, hmem, hrep⟩
      · obtain ⟨hmem, hrep⟩ := afterIndex_some_ok hai
        exact ⟨b, Or.inr ⟨k, hsc⟩, hmem, hrep⟩
    · obtain ⟨-, hcase⟩ := evaluate_ok_cases heval
      rcases hcase with ⟨-, -, hai⟩ | ⟨b, k, -, -, hai⟩
      · obtain ⟨-, hrep⟩ := afterIndex_some_ok hai
        rw [hrep]
        exact replaceStar_no_star (natToDecimal_no_star _) _
      · obtain ⟨-, hrep⟩ := afterIndex_some_ok hai
        rw [hrep]
        exact replaceStar_no_star (natToDecimal_no_star _) _

/-! ## A concrete environment for instantiating the theorems -/

/-- A small concrete collaborator environment: fixed toy payments, a
key-expression extractor covering the four key shells, and a miniscript
toolchain that compiles an expression to its character codes. -/
def envW : Env where
  toOutputScript := fun a => if a = str "A1" then some [169, 20, 7] else none
  p2pkhFromOutput := fun o => some { output := some o, address := some (str "1AddrP2pkh") }
  p2shFromOutput := fun _ => none
  p2wpkhFromOutput := fun _ => none
  p2wshFromOutput := fun _ => none
  p2trFromOutput := fun o => some { output := some o, address := some (str "bc1pAddr") }
  p2pk := fun pub => some { output := some (33 :: pub ++ [172]) }
  p2pkh := fun pub => some { output := some (118 :: 169 :: pub) }
  p2wpkh := fun pub => some { output := some (0 :: 20 :: pub) }
  p2sh := fun redeem =>
    some { output := some (169 :: 20 :: redeem.output.getD []),
           redeemOutput := redeem.output }
  p2wsh := fun redeem =>
    some { output := some (0 :: 32 :: redeem.output.getD []),
           redeemOutput := redeem.output }
  extractKeyExp := fun s =>
    match matchW (str "pk(") (str ")") s with
    | some k => some k
    | none =>
      match matchW (str "pkh(") (str ")") s with
      | some k => some k
      | none =>
        match matchW (str "sh(wpkh(") (str "))") s with
        | some k => some k
        | none => matchW (str "wpkh(") (str ")") s
  parseKeyExpression := fun k _ =>
    if '*' ∈ k then some { keyExpression := k }
    else some { keyExpression := k, pubkey := some (2 :: k.map Char.toNat) }
  expandMiniscript := fun ms _ =>
    some (ms, [{ keyExpression := ms, pubkey := some [3, 3] }])
  miniscript2Script := fun ems _ => some (ems.map Char.toNat)
  decompile := fun script => some (script.map ScriptTok.op)
  satisfyMiniscript := fun _ _ sigs _ _ =>
    some { scriptSatisfaction := some (sigs.flatMap PartialSigT.signature),
           nLockTime := none, nSequence := some 144 }
  txFromBuffer := fun raw => some [raw]
  validateSigs := fun _ _ => true

/-- Extract the expansion of a successful `expand`, with a dummy default
for the error case (used only to name concrete witnesses). -/
def okOr (e : Except String Expansion) : Expansion :=
  match e with
  | .ok r => r
  | .error _ => { toDRes := {}, isRanged := false, canonicalExpression := [] }

/-- Witness for C1. -/
theorem expand_checksum_spec_witness :
    isFailure (expand envW (str "pkh(02aa)") none true false) = true :=
  (expand_checksum_spec envW (str "pkh(02aa)") none true false).1 (by decide) rfl

/-- The concrete successful expansion used by the C2 witness. -/
def rW : Expansion := okOr (expand envW (str "pkh(02aa)") none false false)

/-- Witness for C2. -/
theorem expand_payment_presence_witness :
    (rW.payment.isSome = true ↔ '*' ∉ rW.canonicalExpression) ∧
    ('*' ∈ rW.canonicalExpression →
      rW.redeemScript = none ∧ rW.witnessScript = none) :=
  @expand_payment_presence envW (str "pkh(02aa)") none false false rW rfl

/-- Witness for C3. -/
theorem expand_index_spec_witness :
    isFailure (expand envW (str "pkh(02aa)") (some (-1 : ℚ)) false false) = true :=
  (expand_index_spec envW (str "pkh(02aa)") (-1 : ℚ) false false).1 (by decide)

/-! ## Claim C4: the `addr(...)` branch -/

theorem dispatch_addr {env : Env} {ams ir : Bool} {c : Str} {d : DRes} {a : Str}
    (h : dispatch env ams ir c = .ok d)
    (ha : matchW (str "addr(") (str ")") c = some a) :
    branchAddr env ir c = .ok d := by
  unfold dispatch at h
  rw [if_pos (by rw [ha]; rfl)] at h
  exact h

theorem branchAddr_ok_elim {env : Env} {ir : Bool} {c : Str} {d : DRes} {a : Str}
    (h : branchAddr env ir c = .ok d)
    (ha : matchW (str "addr(") (str ")") c = some a) :
    ∃ out payment, env.toOutputScript a = some out ∧
      lastSome [env.p2pkhFromOutput out, env.p2shFromOutput out,
        env.p2wpkhFromOutput out, env.p2wshFromOutput out,
        env.p2trFromOutput out] = some payment ∧
      d = { payment := some payment } := by
  unfold branchAddr at h
  simp only [ha] at h
  repeat' split at h
  any_goals exact Except.noConfusion h
  injection h with h
  subst h
  exact ⟨_, _, by assumption, by assumption, rfl⟩

theorem branchAddr_fails {env : Env} {ir : Bool} {c : Str} {a : Str}
    (ha : matchW (str "addr(") (str ")") c = some a)
    (hfail : env.toOutputScript a = none ∨
      (∃ out, env.toOutputScript a = some out ∧
        lastSome [env.p2pkhFromOutput out, env.p2shFromOutput out,
          env.p2wpkhFromOutput out, env.p2wshFromOutput out,
          env.p2trFromOutput out] = none)) :
    isFailure (branchAddr env ir c) = true := by
  unfold branchAddr
  split
  · rfl
  · simp only [ha]
    split
    · rfl
    · rcases hfail with hn | ⟨out, hout, hlast⟩
      · simp only [hn]
        rfl
      · simp only [hout, hlast]
        rfl

theorem dispatch_failure_addr {env : Env} {ams ir : Bool} {c : Str} {a : Str}
    (ha : matchW (str "addr(") (str ")") c = some a)
    (hf : isFailure (branchAddr env ir c) = true) :
    isFailure (dispatch env ams ir c) = true := by
  unfold dispatch
  rw [if_pos (by rw [ha]; rfl)]
  exact hf

theorem expand_failure_of_dispatch {env : Env} {d : Str} {idx : Option ℚ}
    {cr ams : Bool} {c : Str}
    (heval : evaluate d cr (idx.map fun q => q.num.toNat) = .ok c)
    (h : isFailure (dispatch env ams (decide ('*' ∈ d)) c) = true) :
    isFailure (expand env d idx cr ams) = true := by
  unfold expand
  split
  · rfl
  · split
    · unfold expandCore
      simp only [heval]
      cases hd : dispatch env ams (decide ('*' ∈ d)) c with
      | error e => simp only [hd]; rfl
      | ok x => rw [hd] at h; exact absurd h (by simp [isFailure])
    · rfl

/-- **C4.** For every `addr(A)` descriptor accepted by `expand`: the
address is decoded under the network to an output script and
trial-parsed as p2pkh, p2sh, p2wpkh, p2wsh, p2tr in that order; the
payment retained is that of the last parser that succeeds; `expand`
fails if the address does not decode or if no parser succeeds;
`isSegwit` is absent from the returned expansion. -/
theorem expand_addr_spec (env : Env) (d : Str) (idx : Option ℚ) (cr ams : Bool)
    (a : Str) :
    (∀ r, expand env d idx cr ams = .ok r →
      matchW (str "addr(") (str ")") r.canonicalExpression = some a →
      r.isSegwit = none ∧
      ∃ out, env.toOutputScript a = some out ∧
        r.payment = lastSome [env.p2pkhFromOutput out, env.p2shFromOutput out,
          env.p2wpkhFromOutput out, env.p2wshFromOutput out,
          env.p2trFromOutput out] ∧
        r.payment.isSome = true) ∧
    (∀ c, evaluate d cr (idx.map fun q => q.num.toNat) = .ok c →
      matchW (str "addr(") (str ")") c = some a →
      (env.toOutputScript a = none → isFailure (expand env d idx cr ams) = true) ∧
      (∀ out, env.toOutputScript a = some out →
        lastSome [env.p2pkhFromOutput out, env.p2shFromOutput out,
          env.p2wpkhFromOutput out, env.p2wshFromOutput out,
          env.p2trFromOutput out] = none →
        isFailure (expand env d idx cr ams) = true)) := by
  constructor
  · intro r hok ha
    obtain ⟨-, -, -, hdisp, -⟩ := expand_ok_parts hok
    obtain ⟨out, payment, hout, hlast, hd⟩ :=
      branchAddr_ok_elim (dispatch_addr hdisp ha) ha
    refine ⟨?_, out, hout, ?_, ?_⟩
    · show r.toDRes.isSegwit = none
      rw [hd]
    · show r.toDRes.payment = _
      rw [hd, hlast]
    · show r.toDRes.payment.isSome = true
      rw [hd]
      rfl
  · intro c heval ha
    constructor
    · intro hn
      exact expand_failure_of_dispatch heval
        (dispatch_failure_addr ha (branchAddr_fails ha (Or.inl hn)))
    · intro out hout hlast
      exact expand_failure_of_dispatch heval
        (dispatch_failure_addr ha (branchAddr_fails ha (Or.inr ⟨out, hout, hlast⟩)))

/-- The concrete successful `addr(...)` expansion used by the C4
witness (in `envW`, both the p2pkh and the p2tr trial parsers succeed,
and the p2tr one - the last - is retained). -/
def rAddr : Expansion := okOr (expand envW (str "addr(A1)") none false false)

/-- Witness for C4. -/
theorem expand_addr_spec_witness :
    rAddr.isSegwit = none ∧
    ∃ out, envW.toOutputScript (str "A1") = some out ∧
      rAddr.payment = lastSome [envW.p2pkhFromOutput out, envW.p2shFromOutput out,
        envW.p2wpkhFromOutput out, envW.p2wshFromOutput out,
        envW.p2trFromOutput out] ∧
      rAddr.payment.isSome = true :=
  (expand_addr_spec envW (str "addr(A1)") none false false (str "A1")).1
    rAddr rfl rfl

/-! ## Claim C5: script size and op-count caps -/

theorem guard_false_of_ne {p₁ q₁ p₂ q₂ c : Str}
    (h : (matchW p₁ q₁ c).isSome = true)
    (h12 : ¬ p₁ <+: p₂) (h21 : ¬ p₂ <+: p₁) :
    ¬ ((matchW p₂ q₂ c).isSome = true) := by
  rw [matchW_none_of_isSome h h12 h21]
  simp

theorem dispatch_wsh {env : Env} {ams ir : Bool} {c : Str} {a : Str}
    (ha : matchW (str "wsh(") (str ")") c = some a) :
    dispatch env ams ir c = branchWsh env (decide ('*' ∈ c)) c := by
  have hg : (matchW (str "wsh(") (str ")") c).isSome = true := by rw [ha]; rfl
  unfold dispatch
  rw [if_neg (guard_false_of_ne hg (by decide) (by decide)),
    if_neg (guard_false_of_ne hg (by decide) (by decide)),
    if_neg (guard_false_of_ne hg (by decide) (by decide)),
    if_neg (guard_false_of_ne hg (by decide) (by decide)),
    if_neg (guard_false_of_ne hg (by decide) (by decide)),
    if_neg (guard_false_of_ne hg (by decide) (by decide)),
    if_neg (guard_false_of_ne hg (by decide) (by decide)),
    if_pos hg]

theorem dispatch_shWsh {env : Env} {ams ir : Bool} {c : Str} {a : Str}
    (ha : matchW (str "sh(wsh(") (str "))") c = some a) :
    dispatch env ams ir c = branchShWsh env (decide ('*' ∈ c)) c := by
  have hg : (matchW (str "sh(wsh(") (str "))") c).isSome = true := by rw [ha]; rfl
  unfold dispatch
  rw [if_neg (guard_false_of_ne hg (by decide) (by decide)),
    if_neg (guard_false_of_ne hg (by decide) (by decide)),
    if_neg (guard_false_of_ne hg (by decide) (by decide)),
    if_neg (guard_false_of_ne hg (by decide) (by decide)),
    if_neg (guard_false_of_ne hg (by decide) (by decide)),
    if_pos hg]

theorem dispatch_shMs {env : Env} {ams ir : Bool} {c : Str} {a : Str}
    (ha : matchW (str "sh(") (str ")") c = some a)
    (hnw : matchW (str "sh(wpkh(") (str "))") c = none)
    (hnws : matchW (str "sh(wsh(") (str "))") c = none) :
    dispatch env ams ir c = branchShMs env ams (decide ('*' ∈ c)) c := by
  have hg : (matchW (str "sh(") (str ")") c).isSome = true := by rw [ha]; rfl
  unfold dispatch
  rw [if_neg (guard_false_of_ne hg (by decide) (by decide)),
    if_neg (guard_false_of_ne hg (by decide) (by decide)),
    if_neg (guard_false_of_ne hg (by decide) (by decide)),
    if_neg (by simp [hnw]),
    if_neg (guard_false_of_ne hg (by decide) (by decide)),
    if_neg (by simp [hnws]),
    if_pos hg]

theorem branchWsh_ok_caps {env : Env} {icr : Bool} {c : Str} {d : DRes} {s : Bytes}
    (h : branchWsh env icr c = .ok d) (hw : d.witnessScript = some s) :
    s.length ≤ 3600 ∧ ∃ n, countNonPushOnlyOPs env s = .ok n ∧ n ≤ 201 := by
  unfold branchWsh at h
  repeat' split at h
  any_goals exact Except.noConfusion h
  all_goals injection h with h
  all_goals subst h
  · exact absurd hw (by simp)
  · injection hw with hw
    subst hw
    refine ⟨by omega, _, by assumption, by omega⟩

theorem branchShWsh_ok_caps {env : Env} {icr : Bool} {c : Str} {d : DRes} {s : Bytes}
    (h : branchShWsh env icr c = .ok d) (hw : d.witnessScript = some s) :
    s.length ≤ 3600 ∧ ∃ n, countNonPushOnlyOPs env s = .ok n ∧ n ≤ 201 := by
  unfold branchShWsh at h
  repeat' split at h
  any_goals exact Except.noConfusion h
  all_goals injection h with h
  all_goals subst h
  · exact absurd hw (by simp)
  · injection hw with hw
    subst hw
    refine ⟨by omega, _, by assumption, by omega⟩

theorem branchShMs_ok_caps {env : Env} {ams icr : Bool} {c : Str} {d : DRes} {s : Bytes}
    (h : branchShMs env ams icr c = .ok d) (hw : d.redeemScript = some s) :
    s.length ≤ 520 ∧ ∃ n, countNonPushOnlyOPs env s = .ok n ∧ n ≤ 201 := by
  unfold branchShMs at h
  repeat' split at h
  any_goals exact Except.noConfusion h
  all_goals injection h with h
  all_goals subst h
  · exact absurd hw (by simp)
  · injection hw with hw
    subst hw
    refine ⟨by omega, _, by assumption, by omega⟩

theorem countNonPushOnlyOPs_error {env : Env} {s : Bytes}
    (hdec : env.decompile s = none) :
    countNonPushOnlyOPs env s = .error "Error: could not decompile" := by
  unfold countNonPushOnlyOPs
  rw [hdec]

theorem branchWsh_fails {env : Env} {c ms ems : Str} {emap : ExpansionMap} {s : Bytes}
    (ha : matchW (str "wsh(") (str ")") c = some ms)
    (hex : env.expandMiniscript ms true = some (ems, emap))
    (hscr : env.miniscript2Script ems emap = some s)
    (hbad : 3600 < s.length ∨ env.decompile s = none ∨
      (∃ n, countNonPushOnlyOPs env s = .ok n ∧ 201 < n)) :
    isFailure (branchWsh env false c) = true := by
  unfold branchWsh
  simp only [ha]
  split
  · rfl
  · simp only [hex, Bool.false_eq_true, if_false, hscr]
    rcases hbad with hlen | hdec | ⟨n, hcnt, hn⟩
    · rw [if_pos hlen]
      rfl
    · split
      · rfl
      · simp only [countNonPushOnlyOPs_error hdec]
        rfl
    · split
      · rfl
      · simp only [hcnt]
        rw [if_pos hn]
        rfl

theorem branchShWsh_fails {env : Env} {c ms ems : Str} {emap : ExpansionMap} {s : Bytes}
    (ha : matchW (str "sh(wsh(") (str "))") c = some ms)
    (hex : env.expandMiniscript ms true = some (ems, emap))
    (hscr : env.miniscript2Script ems emap = some s)
    (hbad : 3600 < s.length ∨ env.decompile s = none ∨
      (∃ n, countNonPushOnlyOPs env s = .ok n ∧ 201 < n)) :
    isFailure (branchShWsh env false c) = true := by
  unfold branchShWsh
  simp only [ha]
  split
  · rfl
  · simp only [hex, Bool.false_eq_true, if_false, hscr]
    rcases hbad with hlen | hdec | ⟨n, hcnt, hn⟩
    · rw [if_pos hlen]
      rfl
    · split
      · rfl
      · simp only [countNonPushOnlyOPs_error hdec]
        rfl
    · split
      · rfl
      · simp only [hcnt]
        rw [if_pos hn]
        rfl

theorem branchShMs_fails {env : Env} {ams : Bool} {c ms ems : Str}
    {emap : ExpansionMap} {s : Bytes}
    (ha : matchW (str "sh(") (str ")") c = some ms)
    (hex : env.expandMiniscript ms false = some (ems, emap))
    (hscr : env.miniscript2Script ems emap = some s)
    (hbad : 520 < s.length ∨ env.decompile s = none ∨
      (∃ n, countNonPushOnlyOPs env s = .ok n ∧ 201 < n)) :
    isFailure (branchShMs env ams false c) = true := by
  unfold branchShMs
  simp only [ha]
  split
  · rfl
  · split
    · rfl
    · simp only [hex, Bool.false_eq_true, if_false, hscr]
      rcases hbad with hlen | hdec | ⟨n, hcnt, hn⟩
      · rw [if_pos hlen]
        rfl
      · split
        · rfl
        · simp only [countNonPushOnlyOPs_error hdec]
          rfl
      · split
        · rfl
        · simp only [hcnt]
          rw [if_pos hn]
          rfl

/-- **C5.** For `sh(wsh(MS))` and `wsh(MS)` descriptors materialized at
a concrete index, `expand` fails when the compiled script exceeds 3600
bytes or contains more than 201 non-push opcodes; for `sh(MS)`, `expand`
fails when the compiled script exceeds 520 bytes or contains more than
201 non-push opcodes; non-push opcodes are counted by
`countNonPushOnlyOPs` (decompile, count opcode tokens with value greater
than `OP_16` = 0x60) and any decompile failure is fatal. -/
theorem expand_script_caps (env : Env) (d : Str) (idx : Option ℚ) (cr ams : Bool) :
    (∀ r s, expand env d idx cr ams = .ok r →
      (matchW (str "wsh(") (str ")") r.canonicalExpression).isSome = true →
      r.witnessScript = some s →
      s.length ≤ 3600 ∧ ∃ n, countNonPushOnlyOPs env s = .ok n ∧ n ≤ 201) ∧
    (∀ r s, expand env d idx cr ams = .ok r →
      (matchW (str "sh(wsh(") (str "))") r.canonicalExpression).isSome = true →
      r.witnessScript = some s →
      s.length ≤ 3600 ∧ ∃ n, countNonPushOnlyOPs env s = .ok n ∧ n ≤ 201) ∧
    (∀ r s, expand env d idx cr ams = .ok r →
      (matchW (str "sh(") (str ")") r.canonicalExpression).isSome = true →
      matchW (str "sh(wpkh(") (str "))") r.canonicalExpression = none →
      matchW (str "sh(wsh(") (str "))") r.canonicalExpression = none →
      r.redeemScript = some s →
      s.length ≤ 520 ∧ ∃ n, countNonPushOnlyOPs env s = .ok n ∧ n ≤ 201) ∧
    (∀ c ms ems emap s, evaluate d cr (idx.map fun q => q.num.toNat) = .ok c →
      '*' ∉ c →
      (matchW (str "wsh(") (str ")") c = some ms →
        env.expandMiniscript ms true = some (ems, emap) →
        env.miniscript2Script ems emap = some s →
        (3600 < s.length ∨ env.decompile s = none ∨
          (∃ n, countNonPushOnlyOPs env s = .ok n ∧ 201 < n)) →
        isFailure (expand env d idx cr ams) = true) ∧
      (matchW (str "sh(wsh(") (str "))") c = some ms →
        env.expandMiniscript ms true = some (ems, emap) →
        env.miniscript2Script ems emap = some s →
        (3600 < s.length ∨ env.decompile s = none ∨
          (∃ n, countNonPushOnlyOPs env s = .ok n ∧ 201 < n)) →
        isFailure (expand env d idx cr ams) = true) ∧
      (matchW (str "sh(") (str ")") c = some ms →
        matchW (str "sh(wpkh(") (str "))") c = none →
        matchW (str "sh(wsh(") (str "))") c = none →
        env.expandMiniscript ms false = some (ems, emap) →
        env.miniscript2Script ems emap = some s →
        (520 < s.length ∨ env.decompile s = none ∨
          (∃ n, countNonPushOnlyOPs env s = .ok n ∧ 201 < n)) →
        isFailure (expand env d idx cr ams) = true)) := by
  refine ⟨?_, ?_, ?_, ?_⟩
  · intro r s hok hg hw
    obtain ⟨-, -, -, hdisp, -⟩ := expand_ok_parts hok
    rcases Option.isSome_iff_exists.mp hg with ⟨a, ha⟩
    rw [dispatch_wsh ha] at hdisp
    exact branchWsh_ok_caps hdisp hw
  · intro r s hok hg hw
    obtain ⟨-, -, -, hdisp, -⟩ := expand_ok_parts hok
    rcases Option.isSome_iff_exists.mp hg with ⟨a, ha⟩
    rw [dispatch_shWsh ha] at hdisp
    exact branchShWsh_ok_caps hdisp hw
  · intro r s hok hg hnw hnws hw
    obtain ⟨-, -, -, hdisp, -⟩ := expand_ok_parts hok
    rcases Option.isSome_iff_exists.mp hg with ⟨a, ha⟩
    rw [dispatch_shMs ha hnw hnws] at hdisp
    exact branchShMs_ok_caps hdisp hw
  · intro c ms ems emap s heval hnc
    have hicr : decide ('*' ∈ c) = false := by simp [hnc]
    refine ⟨?_, ?_, ?_⟩
    · intro ha hex hscr hbad
      refine expand_failure_of_dispatch heval ?_
      rw [dispatch_wsh ha, hicr]
      exact branchWsh_fails ha hex hscr hbad
    · intro ha hex hscr hbad
      refine expand_failure_of_dispatch heval ?_
      rw [dispatch_shWsh ha, hicr]
      exact branchShWsh_fails ha hex hscr hbad
    · intro ha hnw hnws hex hscr hbad
      refine expand_failure_of_dispatch heval ?_
      rw [dispatch_shMs ha hnw hnws, hicr]
      exact branchShMs_fails ha hex hscr hbad

/-- A variant environment whose miniscript compiler produces an
oversized (3601-byte) script. -/
def envBig : Env :=
  { envW with miniscript2Script := fun _ _ => some (List.replicate 3601 0) }

/-- Witness for C5. -/
theorem expand_script_caps_witness :
    isFailure (expand envBig (str "wsh(m)") none false false) = true :=
  ((expand_script_caps envBig (str "wsh(m)") none false false).2.2.2
    (str "wsh(m)") (str "m") (str "m")
    [{ keyExpression := str "m", pubkey := some [3, 3] }]
    (List.replicate 3601 0) rfl (by decide)).1
    (by decide) rfl rfl (Or.inl (by rw [List.length_replicate]; decide))

/-! ## Claim C6: wildcard substitution versus textual substitution -/

theorem dispatch_ir_irrelevant {env : Env} {ams : Bool} {c : Str}
    (haddr : matchW (str "addr(") (str ")") c = none) (ir ir' : Bool) :
    dispatch env ams ir c = dispatch env ams ir' c := by
  unfold dispatch
  have hg : ¬ ((matchW (str "addr(") (str ")") c).isSome = true) := by simp [haddr]
  rw [if_neg hg, if_neg hg]

theorem dispatch_ok_true_not_addr {env : Env} {ams : Bool} {c : Str} {d : DRes}
    (h : dispatch env ams true c = .ok d) :
    matchW (str "addr(") (str ")") c = none := by
  cases hmw : matchW (str "addr(") (str ")") c with
  | none => rfl
  | some a =>
    have hb := dispatch_addr h hmw
    obtain ⟨hir, -, -, -⟩ := branchAddr_payment hb
    exact Bool.noConfusion hir

/-- The checksummed ranged descriptor of the C6 counterexample. -/
def dC : Str := str "wpkh(K/*)" ++ '#' :: DescriptorChecksum (str "wpkh(K/*)")

set_option maxRecDepth 8000 in
/-- **C6 counterexample.** `expand (dC, 0)` succeeds and returns a
payment, but expanding (with no index) the descriptor obtained from
`dC` by textually replacing every `*` with `0` fails: `dC` carries a
valid checksum, and the textual substitution invalidates it.  So the
scriptPubKey equation of the claim has no right-hand side for `dC`. -/
theorem expand_substitute_counterexample :
    isOkWithPayment (expand envW dC (some (0 : ℚ)) false false) = true ∧
    isFailure (expand envW (replaceStar (natToDecimal 0) dC) none false false) = true := by
  constructor
  · decide
  · decide

/-- **C6 amended.** For every ranged descriptor `d` and index `i ≥ 0`,
*whenever the expansion of the substituted descriptor also succeeds*,
the payment (and hence its scriptPubKey) returned by `expand (d, i)`
equals the payment returned by expanding, with no index argument, the
descriptor obtained from `d` by textually replacing every `*` with the
decimal representation of `i`.  (Unconditionally, the claim fails for
checksummed descriptors; see the counterexample.) -/
theorem expand_substitute_agree {env : Env} {d : Str} {i : Nat} {cr ams : Bool}
    {r₁ r₂ : Expansion}
    (h₁ : expand env d (some (i : ℚ)) cr ams = .ok r₁)
    (h₂ : expand env (replaceStar (natToDecimal i) d) none cr ams = .ok r₂) :
    r₁.payment.bind Payment.output = r₂.payment.bind Payment.output ∧
    r₁.payment = r₂.payment := by
  obtain ⟨-, -, heval₁, hdisp₁, -⟩ := expand_ok_parts h₁
  obtain ⟨-, -, heval₂, hdisp₂, -⟩ := expand_ok_parts h₂
  rw [show (Option.some (i : ℚ)).map (fun q => q.num.toNat) = some i by simp] at heval₁
  rw [show (Option.none : Option ℚ).map (fun q => q.num.toNat) = none from rfl] at heval₂
  have hpar : [')'] <:+ r₁.canonicalExpression := dispatch_ok_paren hdisp₁
  -- the two canonical expressions coincide
  obtain ⟨-, hcase⟩ := evaluate_ok_cases heval₁
  have hceq : r₂.canonicalExpression = r₁.canonicalExpression := by
    rcases hcase with ⟨hsc, hcr, hai⟩ | ⟨b, k, hsc, hck, hai⟩
    · obtain ⟨hmem, hc₁⟩ := afterIndex_some_ok hai
      obtain ⟨-, hcase₂⟩ := evaluate_ok_cases heval₂
      rcases hcase₂ with ⟨-, -, hai₂⟩ | ⟨b', k', hsc₂, -, -⟩
      · injection hai₂ with hai₂
        rw [← hai₂, hc₁]
      · rw [← hc₁] at hsc₂
        rw [splitChecksum_none_of_paren_suffix hpar] at hsc₂
        exact Option.noConfusion hsc₂
    · obtain ⟨hmem, hc₁⟩ := afterIndex_some_ok hai
      obtain ⟨hd, hlen, hin⟩ := splitChecksum_eq_some_iff.mp hsc
      have hnk : '*' ∉ ('#' :: k) := by
        intro hm
        rcases List.mem_cons.mp hm with hm | hm
        · exact absurd hm (by decide)
        · exact absurd (hin _ hm) (by decide)
      have hd' : replaceStar (natToDecimal i) d =
          r₁.canonicalExpression ++ '#' :: k := by
        rw [hd, replaceStar_append, replaceStar_eq_self hnk, hc₁]
      have hsc' : splitChecksum (replaceStar (natToDecimal i) d) =
          some (r₁.canonicalExpression, k) :=
        splitChecksum_eq_some_iff.mpr ⟨hd', hlen, hin⟩
      obtain ⟨-, hcase₂⟩ := evaluate_ok_cases heval₂
      rcases hcase₂ with ⟨hsc₂, -, -⟩ | ⟨b', k', hsc₂, -, hai₂⟩
      · rw [hsc'] at hsc₂
        exact Option.noConfusion hsc₂
      · rw [hsc'] at hsc₂
        injection hsc₂ with hsc₂
        injection hsc₂ with hb' hk'
        injection hai₂ with hai₂
        rw [← hai₂, ← hb']
  -- the original descriptor is ranged
  have hir : decide ('*' ∈ d) = true := by
    rcases hcase with ⟨-, -, hai⟩ | ⟨b, k, hsc, -, hai⟩
    · obtain ⟨hmem, -⟩ := afterIndex_some_ok hai
      exact decide_eq_true hmem
    · obtain ⟨hmem, -⟩ := afterIndex_some_ok hai
      obtain ⟨hd, -, -⟩ := splitChecksum_eq_some_iff.mp hsc
      exact decide_eq_true (hd ▸ List.mem_append_left _ hmem)
  rw [hir] at hdisp₁
  have haddr := dispatch_ok_true_not_addr hdisp₁
  rw [hceq] at hdisp₂
  rw [dispatch_ir_irrelevant haddr (decide ('*' ∈ replaceStar (natToDecimal i) d)) true]
    at hdisp₂
  rw [hdisp₁] at hdisp₂
  injection hdisp₂ with hdd
  have hpay : r₁.payment = r₂.payment := by rw [show r₁.payment = r₁.toDRes.payment from rfl, hdd]
  exact ⟨by rw [hpay], hpay⟩

/-- The two concrete expansions of the C6 amended-claim witness
(checksum-free ranged descriptor, index 0). -/
def rSub1 : Expansion :=
  okOr (expand envW (str "wpkh(K/*)") (some ((0 : Nat) : ℚ)) false false)

/-- Second expansion of the C6 witness: the `*`-substituted descriptor,
no index. -/
def rSub2 : Expansion :=
  okOr (expand envW (replaceStar (natToDecimal 0) (str "wpkh(K/*)")) none false false)

set_option maxRecDepth 8000 in
/-- Witness for the amended C6. -/
theorem expand_substitute_agree_witness :
    rSub1.payment.bind Payment.output = rSub2.payment.bind Payment.output ∧
    rSub1.payment = rSub2.payment :=
  expand_substitute_agree
    (show expand envW (str "wpkh(K/*)") (some ((0 : Nat) : ℚ)) false false =
      .ok rSub1 from rfl)
    (show expand envW (replaceStar (natToDecimal 0) (str "wpkh(K/*)")) none
        false false = .ok rSub2 from rfl)

/-! ## Claim C7: time constraints from fake signatures -/

theorem branchAddr_noms {env : Env} {ir : Bool} {c : Str} {d : DRes}
    (h : branchAddr env ir c = .ok d) : d.miniscript = none := by
  unfold branchAddr at h
  repeat' split at h
  any_goals exact Except.noConfusion h
  all_goals injection h with h
  all_goals subst h
  all_goals rfl

theorem branchPk_noms {env : Env} {icr : Bool} {c : Str} {d : DRes}
    (h : branchPk env icr c = .ok d) : d.miniscript = none := by
  unfold branchPk at h
  repeat' split at h
  any_goals exact Except.noConfusion h
  all_goals injection h with h
  all_goals subst h
  all_goals rfl

theorem branchPkh_noms {env : Env} {icr : Bool} {c : Str} {d : DRes}
    (h : branchPkh env icr c = .ok d) : d.miniscript = none := by
  unfold branchPkh at h
  repeat' split at h
  any_goals exact Except.noConfusion h
  all_goals injection h with h
  all_goals subst h
  all_goals rfl

theorem branchShWpkh_noms {env : Env} {icr : Bool} {c : Str} {d : DRes}
    (h : branchShWpkh env icr c = .ok d) : d.miniscript = none := by
  unfold branchShWpkh at h
  repeat' split at h
  any_goals exact Except.noConfusion h
  all_goals injection h with h
  all_goals subst h
  all_goals rfl

theorem branchWpkh_noms {env : Env} {icr : Bool} {c : Str} {d : DRes}
    (h : branchWpkh env icr c = .ok d) : d.miniscript = none := by
  unfold branchWpkh at h
  repeat' split at h
  any_goals exact Except.noConfusion h
  all_goals injection h with h
  all_goals subst h
  all_goals rfl

theorem branchShWsh_msfields {env : Env} {icr : Bool} {c : Str} {d : DRes}
    (h : branchShWsh env icr c = .ok d) :
    d.expandedMiniscript.isSome = true ∧ d.expansionMap.isSome = true := by
  unfold branchShWsh at h
  repeat' split at h
  any_goals exact Except.noConfusion h
  all_goals injection h with h
  all_goals subst h
  all_goals exact ⟨rfl, rfl⟩

theorem branchShMs_msfields {env : Env} {ams icr : Bool} {c : Str} {d : DRes}
    (h : branchShMs env ams icr c = .ok d) :
    d.expandedMiniscript.isSome = true ∧ d.expansionMap.isSome = true := by
  unfold branchShMs at h
  repeat' split at h
  any_goals exact Except.noConfusion h
  all_goals injection h with h
  all_goals subst h
  all_goals exact ⟨rfl, rfl⟩

theorem branchWsh_msfields {env : Env} {icr : Bool} {c : Str} {d : DRes}
    (h : branchWsh env icr c = .ok d) :
    d.expandedMiniscript.isSome = true ∧ d.expansionMap.isSome = true := by
  unfold branchWsh at h
  repeat' split at h
  any_goals exact Except.noConfusion h
  all_goals injection h with h
  all_goals subst h
  all_goals exact ⟨rfl, rfl⟩

/-- Whenever a dispatch result carries a miniscript, it also carries the
expanded miniscript and the expansion map. -/
theorem dispatch_ok_msfields {env : Env} {ams ir : Bool} {c : Str} {d : DRes}
    (h : dispatch env ams ir c = .ok d) :
    d.miniscript = none ∨
      (d.expandedMiniscript.isSome = true ∧ d.expansionMap.isSome = true) := by
  unfold dispatch at h
  repeat' split at h
  any_goals exact Except.noConfusion h
  · exact Or.inl (branchAddr_noms h)
  · exact Or.inl (branchPk_noms h)
  · exact Or.inl (branchPkh_noms h)
  · exact Or.inl (branchShWpkh_noms h)
  · exact Or.inl (branchWpkh_noms h)
  · exact Or.inr (branchShWsh_msfields h)
  · exact Or.inr (branchShMs_msfields h)
  · exact Or.inr (branchWsh_msfields h)

theorem expand_ok_msfields {env : Env} {d : Str} {idx : Option ℚ} {cr ams : Bool}
    {r : Expansion} (h : expand env d idx cr ams = .ok r) :
    r.miniscript = none ∨
      (r.expandedMiniscript.isSome = true ∧ r.expansionMap.isSome = true) := by
  obtain ⟨-, -, -, hdisp, -⟩ := expand_ok_parts h
  exact dispatch_ok_msfields hdisp

/-- Destructuring of a successful `Output` construction. -/
theorem mkOutput_ok_fields {env : Env} {desc : JSVal} {idx : Option ℚ}
    {cr ams : Bool} {pre : List Preimage} {spks : Option (List Bytes)} {o : Output}
    (h : mkOutput env desc idx cr ams pre spks = .ok o) :
    ∃ d r, desc = .strv d ∧ expand env d idx cr ams = .ok r ∧
      o.miniscript = r.miniscript ∧ o.expandedMiniscript = r.expandedMiniscript ∧
      o.expansionMap = r.expansionMap ∧ o.preimages = pre ∧
      o.witnessScript = r.witnessScript ∧ o.redeemScript = r.redeemScript ∧
      r.payment = some o.payment := by
  unfold mkOutput at h
  repeat' split at h
  any_goals exact Except.noConfusion h
  all_goals injection h with h
  all_goals subst h
  all_goals exact ⟨_, _, rfl, by assumption, rfl, rfl, rfl, rfl, rfl, rfl,
    by assumption⟩

theorem getSequence_eq {env : Env} {o : Output} {tc : Option TimeConstraints}
    (h : Output.getTimeConstraints env o = .ok tc) :
    Output.getSequence env o = .ok (tc.bind TimeConstraints.nSequence) := by
  unfold Output.getSequence
  simp only [h]

theorem getLockTime_eq {env : Env} {o : Output} {tc : Option TimeConstraints}
    (h : Output.getTimeConstraints env o = .ok tc) :
    Output.getLockTime env o = .ok (tc.bind TimeConstraints.nLockTime) := by
  unfold Output.getLockTime
  simp only [h]

theorem getSequence_fail {env : Env} {o : Output} {e : String}
    (h : Output.getTimeConstraints env o = .error e) :
    isFailure (Output.getSequence env o) = true := by
  unfold Output.getSequence
  simp only [h]
  rfl

theorem getLockTime_fail {env : Env} {o : Output} {e : String}
    (h : Output.getTimeConstraints env o = .error e) :
    isFailure (Output.getLockTime env o) = true := by
  unfold Output.getLockTime
  simp only [h]
  rfl

theorem getTimeConstraints_none {env : Env} {o : Output}
    (h : o.miniscript = none) :
    Output.getTimeConstraints env o = .ok none := by
  unfold Output.getTimeConstraints
  simp only [h]

theorem getTimeConstraints_some_sat {env : Env} {o : Output} {ms ems : Str}
    {emap : ExpansionMap} {sr : SatRes}
    (hms : o.miniscript = some ms) (hems : o.expandedMiniscript = some ems)
    (hmap : o.expansionMap = some emap)
    (hsat : env.satisfyMiniscript ems emap
      (o.signersPubKeys.map (fun pubkey =>
        { pubkey := pubkey, signature := List.replicate 64 0 : PartialSigT }))
      o.preimages none = some sr) :
    Output.getTimeConstraints env o =
      .ok (some { nLockTime := sr.nLockTime, nSequence := sr.nSequence }) := by
  unfold Output.getTimeConstraints
  simp only [hms, hems, hmap, hsat]

theorem getTimeConstraints_none_sat {env : Env} {o : Output} {ms ems : Str}
    {emap : ExpansionMap}
    (hms : o.miniscript = some ms) (hems : o.expandedMiniscript = some ems)
    (hmap : o.expansionMap = some emap)
    (hsat : env.satisfyMiniscript ems emap
      (o.signersPubKeys.map (fun pubkey =>
        { pubkey := pubkey, signature := List.replicate 64 0 : PartialSigT }))
      o.preimages none = none) :
    Output.getTimeConstraints env o =
      .error "Error: could not satisfy the miniscript" := by
  unfold Output.getTimeConstraints
  simp only [hms, hems, hmap, hsat]

/-- **C7.** For every `Output` built from a miniscript descriptor,
`getSequence()` and `getLockTime()` are obtained by calling the
satisfier with fake signatures of 64 zero bytes, one per entry of
`signersPubKeys`, together with the stored preimages, and returning the
`nSequence` / `nLockTime` of that satisfaction; for an `Output` whose
descriptor has no miniscript, both return `undefined`. -/
theorem output_time_constraints_spec {env : Env} {desc : JSVal} {idx : Option ℚ}
    {cr ams : Bool} {pre : List Preimage} {spks : Option (List Bytes)} {o : Output}
    (h : mkOutput env desc idx cr ams pre spks = .ok o) :
    (o.miniscript = none →
      Output.getSequence env o = .ok none ∧ Output.getLockTime env o = .ok none) ∧
    (∀ ms, o.miniscript = some ms → ∃ ems emap,
      o.expandedMiniscript = some ems ∧ o.expansionMap = some emap ∧
      (match env.satisfyMiniscript ems emap
          (o.signersPubKeys.map (fun pubkey =>
            { pubkey := pubkey, signature := List.replicate 64 0 : PartialSigT }))
          o.preimages none with
        | some sr => Output.getSequence env o = .ok sr.nSequence ∧
                     Output.getLockTime env o = .ok sr.nLockTime
        | none => isFailure (Output.getSequence env o) = true ∧
                  isFailure (Output.getLockTime env o) = true)) := by
  obtain ⟨d, r, -, hexp, hms, hems, hmap, -, -, -, -⟩ := mkOutput_ok_fields h
  constructor
  · intro hnone
    have htc := @getTimeConstraints_none env o hnone
    rw [getSequence_eq htc, getLockTime_eq htc]
    exact ⟨rfl, rfl⟩
  · intro ms hms'
    rcases expand_ok_msfields hexp with hrn | ⟨he1, he2⟩
    · rw [hms', hrn] at hms
      exact Option.noConfusion hms
    · rw [← hems] at he1
      rw [← hmap] at he2
      rcases Option.isSome_iff_exists.mp he1 with ⟨ems, hems'⟩
      rcases Option.isSome_iff_exists.mp he2 with ⟨emap, hmap'⟩
      refine ⟨ems, emap, hems', hmap', ?_⟩
      cases hsat : env.satisfyMiniscript ems emap
          (o.signersPubKeys.map (fun pubkey =>
            { pubkey := pubkey, signature := List.replicate 64 0 : PartialSigT }))
          o.preimages none with
      | none =>
        have htc := getTimeConstraints_none_sat hms' hems' hmap' hsat
        exact ⟨getSequence_fail htc, getLockTime_fail htc⟩
      | some sr =>
        have htc := getTimeConstraints_some_sat hms' hems' hmap' hsat
        rw [getSequence_eq htc, getLockTime_eq htc]
        exact ⟨rfl, rfl⟩

/-- Default-on-error wrapper for constructed outputs (used only to name
concrete witnesses). -/
def okOrOutput (e : Except String Output) : Output :=
  match e with
  | .ok o => o
  | .error _ => { payment := {}, preimages := [], signersPubKeys := [] }

/-- A concrete non-miniscript `Output` (from `pkh(02aa)`). -/
def oPkh : Output :=
  okOrOutput (mkOutput envW (.strv (str "pkh(02aa)")) none false false [] none)

/-- Witness for C7. -/
theorem output_time_constraints_spec_witness :
    Output.getSequence envW oPkh = .ok none ∧
    Output.getLockTime envW oPkh = .ok none :=
  (output_time_constraints_spec
    (show mkOutput envW (.strv (str "pkh(02aa)")) none false false [] none =
      .ok oPkh from rfl)).1 rfl

/-! ## Claims C8 and C9: the PSBT input assertion -/

/-- The expected sequence of the assertion, packaged over the
`getLockTime`/`getSequence` calls (source lines 953-956). -/
def Output.expectedSequenceE (env : Env) (o : Output) : Except String Nat :=
  match o.getLockTime env with
  | .error e => .error e
  | .ok lt =>
    match o.getSequence env with
    | .error e => .error e
    | .ok seqOpt => .ok (expectedSequence seqOpt (lt.getD 0))

/-- The expected locktime of the assertion (`getLockTime() || 0`,
source line 953). -/
def Output.expectedLocktimeE (env : Env) (o : Output) : Except String Nat :=
  match o.getLockTime env with
  | .error e => .error e
  | .ok lt => .ok (lt.getD 0)

theorem assertPsbtInput_ok_elim {env : Env} {o : Output} {psbt : Psbt}
    {index : Nat} {u : Unit}
    (h : Output.assertPsbtInput env o psbt index = .ok u) :
    ∃ input txInput, psbt.inputs.get? index = some input ∧
      psbt.txInputs.get? index = some txInput ∧
      observedScriptPubKey env psbt index = Output.getScriptPubKey o ∧
      Output.expectedSequenceE env o = .ok txInput.sequence ∧
      Output.expectedLocktimeE env o = .ok psbt.locktime ∧
      input.witnessScript = o.witnessScript ∧
      input.redeemScript = o.redeemScript := by
  unfold Output.assertPsbtInput at h
  repeat' split at h
  any_goals exact Except.noConfusion h
  rename_i hcond
  obtain ⟨h1, h2, h3, h4, h5⟩ := hcond
  rename_i xObs spkObs hobs xLT ltv hlt xSeq seqv hseq xSpk spkv hspk
  refine ⟨_, _, by assumption, by assumption, ?_, ?_, ?_, h4.symm, h5.symm⟩
  · rw [hobs, hspk, h1]
  · unfold Output.expectedSequenceE
    simp only [hlt, hseq]
    rw [h2]
  · unfold Output.expectedLocktimeE
    simp only [hlt]
    rw [h3]

/-- **C8.** Before finalizing the PSBT input at a given index, the input
assertion computes the expected sequence as `getSequence()` when
defined, else `0xfffffffe` when `getLockTime()` is nonzero, else
`0xffffffff` (the function `expectedSequence` over the
`getSequence`/`getLockTime` calls), and finalization fails unless the
input's observed scriptPubKey, the transaction input's sequence, the
PSBT's locktime, and the input's `witnessScript` and `redeemScript` all
equal this `Output`'s corresponding values. -/
theorem finalize_asserts_input_shape {env : Env} {o : Output} {psbt : Psbt}
    {index : Nat} {validate : Bool} {a : FinalAction}
    (h : Output.finalizePsbtInput env o index psbt validate = .ok a)
    {input : PsbtInputData} {txInput : TxInput}
    (hin : psbt.inputs.get? index = some input)
    (htx : psbt.txInputs.get? index = some txInput) :
    observedScriptPubKey env psbt index = Output.getScriptPubKey o ∧
    Output.expectedSequenceE env o = .ok txInput.sequence ∧
    Output.expectedLocktimeE env o = .ok psbt.locktime ∧
    input.witnessScript = o.witnessScript ∧
    input.redeemScript = o.redeemScript := by
  have hassert : ∃ u, Output.assertPsbtInput env o psbt index = .ok u := by
    unfold Output.finalizePsbtInput at h
    repeat' split at h
    any_goals exact Except.noConfusion h
    all_goals exact ⟨_, by assumption⟩
  obtain ⟨u, hu⟩ := hassert
  obtain ⟨input', txInput', hin', htx', hobs, hseq, hlt, hw, hr⟩ :=
    assertPsbtInput_ok_elim hu
  rw [hin] at hin'
  injection hin' with hin'
  rw [htx] at htx'
  injection htx' with htx'
  subst hin'
  subst htx'
  exact ⟨hobs, hseq, hlt, hw, hr⟩

/-- The PSBT input of the C8/C9 witnesses: its witnessUtxo script is the
scriptPubKey of `oPkh`; no witnessScript/redeemScript, matching `oPkh`. -/
def inputW : PsbtInputData :=
  { partialSig := some [{ pubkey := [2], signature := [3] }],
    witnessUtxo := some [118, 169, 2, 48, 50, 97, 97] }

/-- The transaction input of the C8/C9 witnesses (sequence `0xffffffff`
matching the no-locktime, no-sequence `oPkh`). -/
def txInputW : TxInput := { sequence := 0xffffffff, index := 0 }

/-- The PSBT of the C8/C9 witnesses. -/
def psbtW : Psbt := { inputs := [inputW], txInputs := [txInputW], locktime := 0 }

/-- Witness for C8. -/
theorem finalize_asserts_input_shape_witness :
    observedScriptPubKey envW psbtW 0 = Output.getScriptPubKey oPkh ∧
    Output.expectedSequenceE envW oPkh = .ok txInputW.sequence ∧
    Output.expectedLocktimeE envW oPkh = .ok psbtW.locktime ∧
    inputW.witnessScript = oPkh.witnessScript ∧
    inputW.redeemScript = oPkh.redeemScript :=
  @finalize_asserts_input_shape envW oPkh psbtW 0 true FinalAction.standard rfl
    inputW txInputW rfl rfl

/-- **C9.** In the PSBT input assertion, the `witnessScript` and
`redeemScript` comparisons treat two absent values as equal: an `Output`
without a witnessScript (resp. redeemScript) passes the assertion only
for PSBT inputs that also lack that field, and an absent value never
compares equal to a present buffer, so a presence mismatch in either
direction makes the assertion (and hence finalization) fail. -/
theorem assert_script_presence (env : Env) (o : Output) (psbt : Psbt) (index : Nat)
    (input : PsbtInputData) (hin : psbt.inputs.get? index = some input) :
    (∀ u, Output.assertPsbtInput env o psbt index = .ok u →
      o.witnessScript = input.witnessScript ∧
      o.redeemScript = input.redeemScript) ∧
    ((o.witnessScript.isSome ≠ input.witnessScript.isSome ∨
      o.redeemScript.isSome ≠ input.redeemScript.isSome) →
      isFailure (Output.assertPsbtInput env o psbt index) = true) ∧
    (∀ txInput spkObs lt seqOpt,
      psbt.txInputs.get? index = some txInput →
      observedScriptPubKey env psbt index = .ok spkObs →
      Output.getScriptPubKey o = .ok spkObs →
      Output.getLockTime env o = .ok lt →
      Output.getSequence env o = .ok seqOpt →
      expectedSequence seqOpt (lt.getD 0) = txInput.sequence →
      lt.getD 0 = psbt.locktime →
      o.witnessScript = none → input.witnessScript = none →
      o.redeemScript = none → input.redeemScript = none →
      Output.assertPsbtInput env o psbt index = .ok ()) := by
  refine ⟨?_, ?_, ?_⟩
  · intro u hu
    obtain ⟨input', txInput', hin', -, -, -, -, hw, hr⟩ := assertPsbtInput_ok_elim hu
    rw [hin] at hin'
    injection hin' with hin'
    subst hin'
    exact ⟨hw.symm, hr.symm⟩
  · intro hmm
    cases ha : Output.assertPsbtInput env o psbt index with
    | error e => rfl
    | ok u =>
      obtain ⟨input', txInput', hin', -, -, -, -, hw, hr⟩ := assertPsbtInput_ok_elim ha
      rw [hin] at hin'
      injection hin' with hin'
      subst hin'
      rcases hmm with hmm | hmm
      · exact absurd (congrArg Option.isSome hw).symm hmm
      · exact absurd (congrArg Option.isSome hr).symm hmm
  · intro txInput spkObs lt seqOpt htx hobs hspk hlt hseq hseqeq hlteq hwn hiwn hrn hirn
    unfold Output.assertPsbtInput
    simp only [hin, htx, hobs, hlt, hseq, hspk]
    rw [if_pos ⟨by trivial, hseqeq, hlteq, by rw [hwn, hiwn], by rw [hrn, hirn]⟩]

/-- Witness for C9. -/
theorem assert_script_presence_witness :
    Output.assertPsbtInput envW oPkh psbtW 0 = .ok () :=
  (assert_script_presence envW oPkh psbtW 0 inputW rfl).2.2
    txInputW [118, 169, 2, 48, 50, 97, 97] none none
    rfl rfl rfl rfl rfl rfl rfl rfl rfl rfl rfl

/-! ## Claim C10: non-string descriptor arguments -/

/-- **C10.** The `Output` constructor throws for every `descriptor`
argument that is not a string (for example `undefined`, a number, or a
`Buffer`), before any checksum verification, index handling, or
expansion is attempted: the raised error is the type error, and it is
independent of every other argument and of the collaborator
environment. -/
theorem output_rejects_nonstring (env : Env) (idx : Option ℚ) (cr ams : Bool)
    (pre : List Preimage) (spks : Option (List Bytes)) (v : JSVal)
    (hv : ∀ s, v ≠ .strv s) :
    mkOutput env v idx cr ams pre spks = .error "Error: invalid descriptor type" := by
  unfold mkOutput
  cases v with
  | strv s => exact absurd rfl (hv s)
  | numv q => rfl
  | bufv b => rfl
  | boolv b => rfl
  | undef => rfl

/-- Witness for C10 (`undefined` descriptor, with an invalid index and
`checksumRequired` set: the type error still wins). -/
theorem output_rejects_nonstring_witness :
    mkOutput envW JSVal.undef (some (-7 : ℚ)) true true [] none =
      .error "Error: invalid descriptor type" :=
  output_rejects_nonstring envW (some (-7 : ℚ)) true true [] none JSVal.undef
    (fun _ h => JSVal.noConfusion h)
